import Mathlib

/-!
Verification development for the `autoscrapping` repository (three Python
scraping scripts: `mycommunity.py`, `mycommunitydirectory.py`, `scrapee.py`).

The scripts are embedded shallowly: external collaborators (the browser,
the FireCrawl HTTP API, the Google-Sheets client) are modelled as oracle
inputs (pre-fetched pages, response streams, in-memory row tables), and the
scripts' own logic (string parsing, resume logic, merge/dedup protocol,
sheet updates) is translated function by function.  Strings are Lean
`String`s; the Python string operations used by the code (`strip`,
`lower`, `split`, `", ".join`, regex matches) are implemented by structural
recursion over the underlying character lists so that all definitions
evaluate by kernel reduction.
-/

/-! ## Python string primitives -/

/-- Python whitespace for `str.strip` / `str.split` / regex `\s` (ASCII model). -/
def pySpace (c : Char) : Bool :=
  c = ' ' || c = '\t' || c = '\n' || c = '\r' || c = '\x0b' || c = '\x0c'

/-- Regex `\w` (ASCII model): letters, digits, underscore. -/
def isWordChar (c : Char) : Bool :=
  c.isAlphanum || c = '_'

/-- A character allowed inside the `[\w\s]` character class. -/
def isWordSpace (c : Char) : Bool :=
  isWordChar c || pySpace c

/-- Regex `[A-Z]` (ASCII uppercase letter). -/
def isUpperAZ (c : Char) : Bool :=
  'A' ≤ c && c ≤ 'Z'

/-- `str.strip()` on a character list. -/
def pyStripChars (cs : List Char) : List Char :=
  ((cs.dropWhile pySpace).reverse.dropWhile pySpace).reverse

/-- Python `str.strip()`. -/
def pyStrip (s : String) : String :=
  String.mk (pyStripChars s.data)

/-- Python `str.lower()` (ASCII model). -/
def pyLower (s : String) : String :=
  String.mk (s.data.map Char.toLower)

/-- `strip().lower()`, the comparison normal form used by the scripts. -/
def pyStripLower (s : String) : String :=
  pyLower (pyStrip s)

/-- Helper for `pyWords`: split a character list on whitespace runs. -/
def pyWordsAux : List Char → List Char → List (List Char)
  | [], [] => []
  | [], acc => [acc.reverse]
  | c :: rest, acc =>
    if pySpace c then
      match acc with
      | [] => pyWordsAux rest []
      | _ => acc.reverse :: pyWordsAux rest []
    else pyWordsAux rest (c :: acc)

/-- Python `str.split()` with no argument: whitespace-separated words, no empties. -/
def pyWords (s : String) : List String :=
  (pyWordsAux s.data []).map String.mk

/-- Helper for `splitCS`: Python `str.split(", ")`, left-to-right non-overlapping. -/
def splitCSAux : List Char → List Char → List (List Char)
  | [], acc => [acc.reverse]
  | [c], acc => [(c :: acc).reverse]
  | c1 :: c2 :: rest, acc =>
    if c1 = ',' ∧ c2 = ' ' then acc.reverse :: splitCSAux rest []
    else splitCSAux (c2 :: rest) (c1 :: acc)

/-- Python `s.split(", ")`. -/
def splitCS (s : String) : List String :=
  (splitCSAux s.data []).map String.mk

/-- Python `", ".join(l)`. -/
def joinCS : List String → String
  | [] => ""
  | [s] => s
  | s :: rest => s ++ ", " ++ joinCS rest

/-- `noCS cs` holds when `cs` contains no occurrence of the two-character
separator `", "`. -/
def noCS : List Char → Bool
  | [] => true
  | [_] => true
  | c1 :: c2 :: rest => !(c1 = ',' && c2 = ' ') && noCS (c2 :: rest)

/-- Insert a string into a list, keeping `<` (code-point lexicographic) order. -/
def insortStr (x : String) : List String → List String
  | [] => [x]
  | y :: ys => if x < y then x :: y :: ys else y :: insortStr x ys

/-- Insertion sort by Python's `<` on strings. -/
def sortStrs : List String → List String
  | [] => []
  | x :: xs => insortStr x (sortStrs xs)

/-- Python `sorted(set(l))`: distinct elements in increasing order. -/
def sortedSet (l : List String) : List String :=
  sortStrs l.dedup

/-- Numeric value of a digit string (`int(tok)` for a token of digits). -/
def natOfDigits (cs : List Char) : Nat :=
  cs.foldl (fun n c => 10 * n + (c.toNat - 48)) 0

/-- Python `tok.isdigit()` for an ASCII token. -/
def pyIsDigitStr (s : String) : Bool :=
  !s.data.isEmpty && s.data.all Char.isDigit

/-! ## Rows and sheets

A Google-Sheets worksheet is modelled as a `List Row` of its
`get_all_values()` contents, the header row (when present) included. -/

/-- One spreadsheet row, as the list of its cell texts. -/
abbrev Row := List String

/-- Cell access with Python-dict / gspread padding semantics: absent cells read
as the empty string. -/
def cellAt (row : Row) (i : Nat) : String :=
  row.getD i ""

/-! ## scrapee.py -/

namespace Scrapee

/-- `extract_result_count` (scrapee.py lines 139-156), with the page fetch and
the CSS selector modelled as oracles: `none` is a failed `fetch_page`,
`some none` a page without the `p.search-summary strong` element, and
`some (some txt)` that element's text.  `Except.error ()` models the
`IndexError` raised by `result_text.split()[0]` on token-less text. -/
def extractResultCount (fetched : Option (Option String)) : Except Unit Int :=
  match fetched with
  | none => .ok 0
  | some none => .ok 0
  | some (some txt) =>
    let resultText := pyStrip txt
    match pyWords resultText with
    | [] => .error ()
    | tok :: _ => .ok (if pyIsDigitStr tok then (natOfDigits tok.data : Int) else 0)

end Scrapee

/-! ## Generic list/string helpers shared by the scripts -/

/-- Python `s.split(sep)` for a one-character separator (keeps empty pieces). -/
def splitOnCharAux (sep : Char) : List Char → List Char → List (List Char)
  | [], acc => [acc.reverse]
  | c :: rest, acc =>
    if c = sep then acc.reverse :: splitOnCharAux sep rest []
    else splitOnCharAux sep rest (c :: acc)

/-- Python `s.split(sep)` for a one-character separator. -/
def pySplitChar (s : String) (sep : Char) : List String :=
  (splitOnCharAux sep s.data []).map String.mk

/-- Python `s.rstrip(c)` for a one-character argument. -/
def pyRstrip (s : String) (c : Char) : String :=
  String.mk (s.data.reverse.dropWhile (· = c)).reverse

/-- Python `"\n".join(l)`. -/
def joinNL : List String → String
  | [] => ""
  | [s] => s
  | s :: rest => s ++ "\n" ++ joinNL rest

/-! ## mycommunitydirectory.py -/

namespace Mcd

/-- `COUNCIL_NAME` of mycommunitydirectory.py. -/
def COUNCIL_NAME : String := "Gabo Island Council"

/-- `append_to_sheet` (lines 47-49): append one row to the output sheet. -/
def appendToSheet (sheet : List Row) (data : Row) : List Row :=
  sheet ++ [data]

/-- `append_to_skipped_sheet` (lines 51-53). -/
def appendToSkippedSheet (skipped : List Row) (data : Row) : List Row :=
  skipped ++ [data]

/-- `get_last_scraped_entry` (lines 55-63): last row's column 19 (subcategory
URL) and column 5 (company name) when the sheet has more than one row. -/
def getLastScrapedEntry (outputData : List Row) : Option (String × String) :=
  if 1 < outputData.length then
    match outputData.getLast? with
    | some lastRow => some (cellAt lastRow 18, cellAt lastRow 4)
    | none => none
  else none

/-- `get_subcategory_urls` (lines 65-79): URLs of the tracking rows for this
council whose Result column is not the string "0". -/
def getSubcategoryUrls (tracking : List Row) : List String :=
  (tracking.drop 1).filterMap (fun row =>
    let url := cellAt row 5
    if url ≠ "" ∧ cellAt row 6 ≠ "0" ∧ cellAt row 0 = COUNCIL_NAME then some url else none)

/-- The module-level resume computation (lines 344-352): start after the first
occurrence of the last scraped URL, or at 0 when that URL is falsy or absent. -/
def resumeStart (urls : List String) (lastUrl : Option String) : Nat :=
  match lastUrl with
  | some u => if u ≠ "" ∧ u ∈ urls then urls.indexOf u + 1 else 0
  | none => 0

/-- The subcategory URLs actually scraped by the module-level loop
(lines 344-360): the suffix of the tracking URLs from the resume point. -/
def processedUrls (tracking outputData : List Row) : List String :=
  let urls := getSubcategoryUrls tracking
  urls.drop (resumeStart urls ((getLastScrapedEntry outputData).map (·.1)))

/-- One decoded FireCrawl HTTP response: status code and the JSON body's
`success` flag (the rest of the body plays no role in the retry logic). -/
structure FireResp where
  status : Nat
  success : Bool
deriving DecidableEq

/-- The retry loop of `firecrawl_scrape` (lines 81-99).  `responses n` is the
response to the (n+1)-st POST and `rng n` the value `random.uniform(10, 20)`
would produce after the (n+1)-st failure.  Returns the decoded response of the
first successful attempt (or `none`) together with the list of slept delays. -/
def firecrawlGo (responses : Nat → FireResp) (rng : Nat → ℚ) :
    Nat → Nat → Option FireResp × List ℚ
  | _, 0 => (none, [])
  | i, n + 1 =>
    let r := responses i
    if r.status = 200 ∧ r.success then (some r, [])
    else
      let next := firecrawlGo responses rng (i + 1) n
      (next.1, rng i :: next.2)

/-- `firecrawl_scrape` with `max_retries = 3`. -/
def firecrawlScrape (responses : Nat → FireResp) (rng : Nat → ℚ) :
    Option FireResp × List ℚ :=
  firecrawlGo responses rng 0 3

/-- `extract_category_info` (lines 105-115), with the breadcrumb texts
(`span[itemprop='title']` contents) as the oracle input. -/
structure CatInfo where
  category_name : String
  subcategory_name : String
  services : String
deriving DecidableEq

/-- `extract_category_info` (lines 105-115). -/
def extractCategoryInfo (categories : List String) : CatInfo :=
  if 4 ≤ categories.length then
    if 4 < categories.length then
      { category_name := categories.getD 3 ""
        subcategory_name := categories.getD 4 ""
        services := categories.getD 3 "" ++ ", " ++ categories.getD 4 "" }
    else
      { category_name := categories.getD 3 "", subcategory_name := "N/A"
        services := categories.getD 3 "" }
  else { category_name := "N/A", subcategory_name := "N/A", services := "N/A" }

/-- `extract_main_state` (lines 148-153): `url.split("/")[3]` when present. -/
def extractMainState (url : String) : String :=
  let parts := pySplitChar url '/'
  if 3 < parts.length then parts.getD 3 "N/A" else "N/A"

/-- `extract_suburb_state_postal`'s result record. -/
structure SSP where
  suburb : String
  state : String
  postal_code : String
deriving DecidableEq

/-- `extract_suburb_state_postal` (lines 204-214): last three whitespace
words of the location text, or all "N/A". -/
def extractSuburbStatePostal (locationText : String) : SSP :=
  let words := pyWords locationText
  if 3 ≤ words.length then
    { suburb := words.getD (words.length - 3) ""
      state := words.getD (words.length - 2) ""
      postal_code := words.getD (words.length - 1) "" }
  else { suburb := "N/A", state := "N/A", postal_code := "N/A" }

/-- A successfully fetched and parsed business-profile page, with the CSS
selector results as oracles (the spec treats selector extraction as an
external collaborator): location element text, phone element text, the
website URL produced by `extract_website_url` when its element is present,
the `center=(lat),(long)` regex match over the page, and the paragraph texts
of `div.description p`. -/
structure DirPage where
  locationText : Option String
  phoneText : Option String
  websiteUrl : Option String
  latLong : Option (String × String)
  aboutParas : List String
deriving DecidableEq

/-- The record built by `extract_details_from_link`. -/
structure DirDetails where
  location : String
  suburb : String
  state : String
  postal_code : String
  phone : String
  website : String
  outlet_id : String
  latitude : String
  longitude : String
  about_us : String
deriving DecidableEq

/-- The all-"N/A" record returned when scraping fails (lines 158-170). -/
def dirDetailsNA : DirDetails :=
  { location := "N/A", suburb := "N/A", state := "N/A", postal_code := "N/A"
    phone := "N/A", website := "N/A", outlet_id := "N/A", latitude := "N/A"
    longitude := "N/A", about_us := "N/A" }

/-- `extract_details_from_link` (lines 155-202).  `fetch` is `none` when
`firecrawl_scrape` fails or the response carries no success flag.
`Except.error ()` models the `IndexError` raised by
`url.rstrip('/').split('/')[-2]` on a URL whose rstripped form contains no
slash.  (When that guard index exists, `url.split("/")` has at least two
pieces as well, so the value indexing never raises.) -/
def extractDetailsFromLink (fetch : Option DirPage) (url : String) :
    Except Unit DirDetails :=
  match fetch with
  | none => .ok dirDetailsNA
  | some page =>
    let locationText := match page.locationText with | some t => t | none => "N/A"
    let rparts := pySplitChar (pyRstrip url '/') '/'
    if rparts.length < 2 then .error ()
    else
      let guardTok := rparts.getD (rparts.length - 2) ""
      let parts := pySplitChar url '/'
      let outletId := if pyIsDigitStr guardTok then parts.getD (parts.length - 2) "" else "N/A"
      let latLong := match page.latLong with | some p => p | none => ("N/A", "N/A")
      let addr := extractSuburbStatePostal locationText
      .ok { location := locationText
            suburb := addr.suburb, state := addr.state, postal_code := addr.postal_code
            phone := match page.phoneText with | some p => p | none => "N/A"
            website := match page.websiteUrl with | some w => w | none => "N/A"
            outlet_id := outletId
            latitude := latLong.1, longitude := latLong.2
            about_us := joinNL page.aboutParas }

/-- Lookup in the `existing_companies` dict, modelled as an association list
where the most recent binding is first (Python dict: later wins). -/
def assocGet (m : List ((String × String) × String)) (k : String × String) :
    Option String :=
  (m.find? (fun p => p.1 = k)).map (·.2)

/-- Dict update: prepend the new binding. -/
def assocSet (m : List ((String × String) × String)) (k : String × String)
    (v : String) : List ((String × String) × String) :=
  (k, v) :: m

/-- Line 259: `{(row[4], row[8]): row[3] for row in existing_entries}` — the
dict built over all rows of the output sheet, header included, later rows
overwriting earlier ones. -/
def buildExisting (sheet : List Row) : List ((String × String) × String) :=
  sheet.foldl (fun m row => assocSet m (cellAt row 4, cellAt row 8) (cellAt row 3)) []

/-- `list(set(l))` — one concrete realization (Python's set iteration order is
unspecified); used only where the code compares the underlying sets. -/
def pyListSet (l : List String) : List String :=
  l.dedup

/-- `set(a) == set(b)` on string lists. -/
def setEqStrs (a b : List String) : Bool :=
  a.all (fun s => b.contains s) && b.all (fun s => a.contains s)

/-- `sheet.find(value, in_column=col+1)`: index of the first row (header
included, scanning top-down) whose cell in the column equals the value. -/
def findRowByCol (sheet : List Row) (col : Nat) (val : String) : Option Nat :=
  sheet.findIdx? (fun row => cellAt row col = val)

/-- Overwrite a single cell of a sheet (gspread `update_cell`, 0-based here). -/
def updateRowCell (sheet : List Row) (i j : Nat) (v : String) : List Row :=
  sheet.set i ((sheet.getD i []).set j v)

/-- A company extracted by `extract_company_info` (selector oracle). -/
structure DirCompany where
  company_name : String
  service_area : String
  ndis_provider : String
deriving DecidableEq

/-- The key stored in `existing_skipped_data` (lines 262-265):
`(row[2], row[3], row[4], row[6])`. -/
def skKey (row : Row) : String × String × String × String :=
  (cellAt row 2, cellAt row 3, cellAt row 4, cellAt row 6)

/-- The mutable state threaded through `scrape_subcategory`'s company loop:
the output sheet, the skipped-link ledger, and the `existing_companies` dict.
Note that the snapshot `existing_skipped_data` is NOT part of this state —
the source computes it once, before the loop. -/
structure DirState where
  sheet : List Row
  skipped : List Row
  existing : List ((String × String) × String)
deriving DecidableEq

/-- The 19-column row appended for a new entry (lines 320-341). -/
def dirNewRow (mainState : String) (cat : CatInfo) (url ts : String)
    (c : DirCompany) (link : String) (d : DirDetails) : Row :=
  [ts, mainState, COUNCIL_NAME, cat.services, c.company_name, c.service_area,
   c.ndis_provider, d.about_us, d.outlet_id, link, d.location, d.suburb,
   d.state, d.postal_code, d.latitude, d.longitude, d.website, d.phone, url]

/-- One iteration of the `for company, link in zip(companies, links)` loop of
`scrape_subcategory` (lines 267-342), with the details-extraction result for
the link given as an oracle.  `snapshot` is the `existing_skipped_data` set
computed before the loop. -/
def dirProcessCompany (snapshot : List (String × String × String × String))
    (cat : CatInfo) (mainState url ts : String) (st : DirState)
    (c : DirCompany) (link : String) (d : DirDetails) : DirState :=
  let key := (c.company_name, d.outlet_id)
  let existingServices := (assocGet st.existing key).getD ""
  if existingServices ≠ "" then
    let exList := splitCS existingServices
    let newList := splitCS cat.services
    let updList := pyListSet (exList ++ newList)
    let updated := joinCS updList
    let existing2 := assocSet st.existing key updated
    let sheet2 :=
      match findRowByCol st.sheet 4 c.company_name with
      | some i => if setEqStrs exList updList then st.sheet else updateRowCell st.sheet i 3 updated
      | none => st.sheet
    let entryKey := (cat.category_name, cat.subcategory_name, c.company_name, d.outlet_id)
    let skipped2 :=
      if entryKey ∈ snapshot then st.skipped
      else appendToSkippedSheet st.skipped
        [ts, COUNCIL_NAME, cat.category_name, cat.subcategory_name,
         c.company_name, link, d.outlet_id, d.location]
    { sheet := sheet2, skipped := skipped2, existing := existing2 }
  else
    { sheet := appendToSheet st.sheet (dirNewRow mainState cat url ts c link d)
      skipped := st.skipped, existing := st.existing }

/-- `scrape_subcategory` (lines 239-342) on the sheet states, with the page
fetch, breadcrumb and per-company extraction results as oracles.  When the
main fetch fails the function returns early and both sheets are untouched
(the `existing` component is then unused). -/
def scrapeSubcategoryCore (fetchOk : Bool) (breadcrumb : List String)
    (url ts : String) (sheet0 skipped0 : List Row)
    (items : List (DirCompany × String × DirDetails)) : DirState :=
  if fetchOk then
    let cat := extractCategoryInfo breadcrumb
    let mainState := extractMainState url
    let existing0 := buildExisting sheet0
    let snapshot := (skipped0.drop 1).map skKey
    items.foldl
      (fun st it => dirProcessCompany snapshot cat mainState url ts st it.1 it.2.1 it.2.2)
      { sheet := sheet0, skipped := skipped0, existing := existing0 }
  else { sheet := sheet0, skipped := skipped0, existing := [] }

end Mcd

/-! ## mycommunity.py -/

namespace Mc

/-- `COUNCIL_NAME` of mycommunity.py. -/
def COUNCIL_NAME : String := "Banyule Council"

/-- The header row written by `save_to_google_sheets` (lines 38-40). -/
def HEADERS : List String :=
  ["Timestamp", "main_state", "council_name", "services", "company_name",
   "service_area", "ndis_provider", "about", "outlet", "details_url", "location",
   "suburb", "state", "postal_code", "latitude", "longitude", "website", "phone",
   "subcategory_url"]

/-- A Python `dict` with string values, as an association list where the most
recent binding comes first. -/
abbrev Dict := List (String × String)

/-- Python `d.get(k)`. -/
def dictGet (d : Dict) (k : String) : Option String :=
  (d.find? (fun p => p.1 = k)).map (·.2)

/-- Python `d.get(k, v)`. -/
def dictGetD (d : Dict) (k v : String) : String :=
  (dictGet d k).getD v

/-- Python `d[k] = v`. -/
def dictSet (d : Dict) (k v : String) : Dict :=
  (k, v) :: d

/-- `save_to_google_sheets` (lines 31-51): insert the header row at the top
when it is missing or wrong, then append one timestamped row per entry. -/
def saveToGoogleSheets (sheet : List Row) (data : List Dict) (ts : String) :
    List Row :=
  if data.isEmpty then sheet
  else
    let base := if sheet = [] ∨ sheet.headD [] ≠ HEADERS then HEADERS :: sheet else sheet
    base ++ data.map (fun e => ts :: HEADERS.tail.map (fun h => dictGetD e h "N/A"))

/-- A `get_all_records` field access: the cell under the header with this
exact name (Python dict key), or "" when the header is absent. -/
def recordGet (headers : List String) (row : Row) (key : String) : String :=
  match headers.findIdx? (· = key) with
  | some i => cellAt row i
  | none => ""

/-- `get_latest_scraped_entry` (lines 53-78): scan the data rows bottom-up
for the last one with a non-blank subcategory URL.  `none` covers both the
`(None, None, None)` returns (empty sheet, missing columns, no such row). -/
def getLatestScrapedEntry (data : List Row) : Option (String × String × String) :=
  if data.length ≤ 1 then none
  else
    let headers := data.headD []
    match headers.findIdx? (· = "subcategory_url"), headers.findIdx? (· = "details_url"),
          headers.findIdx? (· = "outlet") with
    | some cs, some cd, some co =>
      match (data.drop 1).reverse.find?
          (fun row => cs < row.length ∧ pyStrip (cellAt row cs) ≠ "") with
      | some row => some (cellAt row cs, cellAt row cd, cellAt row co)
      | none => none
    | _, _, _ => none

/-- Scan for the leftmost regex match of `\.au/([^/]+)/` (helper for
`extract_main_state`, lines 80-83). -/
def emsAux : List Char → String
  | [] => "N/A"
  | c :: rest =>
    if c = '.' then
      match rest with
      | 'a' :: 'u' :: '/' :: rest2 =>
        let seg := rest2.takeWhile (· ≠ '/')
        if !seg.isEmpty ∧ (rest2.drop seg.length).head? = some '/' then String.mk seg
        else emsAux rest
      | _ => emsAux rest
    else emsAux rest

/-- `extract_main_state` (lines 80-83): `re.search(r"\.au/([^/]+)/", url)`. -/
def extractMainState (councilUrl : String) : String :=
  emsAux councilUrl.data

/-- One entry of the `subcategory_links` list (lines 102-112). -/
structure MainLink where
  main_state : String
  council_name : String
  subcategory_url : String
deriving DecidableEq

/-- `fetch_subcategory_links` (lines 85-125): council-filtered tracking rows,
then — when a last-scraped URL is given — `dropwhile` up to its first
case-insensitive match.  When no entry matches, `dropwhile` empties the list
and the source returns that empty list (despite printing
"... not found, returning all links"). -/
def fetchSubcategoryLinks (tracking : List Row) (lastScraped : Option String) :
    List MainLink :=
  if tracking.length < 2 then []
  else
    let headers := tracking.headD []
    match headers.findIdx? (· = "Council"), headers.findIdx? (· = "Council URL"),
          headers.findIdx? (· = "Subcategory URL"), headers.findIdx? (· = "Result") with
    | some cc, some cu, some cs, some cr =>
      let links := (tracking.drop 1).filterMap (fun row =>
        if max cs cr < row.length ∧ cellAt row cc = COUNCIL_NAME ∧
            pyStrip (cellAt row cr) ≠ "0"
        then some { main_state := extractMainState (cellAt row cu)
                    council_name := cellAt row cc
                    subcategory_url := cellAt row cs }
        else none)
      match lastScraped with
      | some ls =>
        if ls = "" then links
        else links.dropWhile (fun e => pyLower e.subcategory_url ≠ pyLower ls)
      | none => links
    | _, _, _, _ => []  -- headers.index raises ValueError in the source

/-- Suffix analysis shared by the two regexes of `parse_location`
(lines 275-294): on the reversed characters, recognize
`...\s([A-Z]{2,3})\s(\d{4})$` and return the reversed remainder before the
first separator, the state group and the postcode group.  The `{2,3}`
quantifier needs no backtracking: the third character back is an uppercase
letter or a whitespace, never both. -/
def sspSuffix (cs : List Char) : Option (List Char × List Char × List Char) :=
  match cs.reverse with
  | p1 :: p2 :: p3 :: p4 :: w1 :: c1 :: c2 :: rest =>
    if p1.isDigit && p2.isDigit && p3.isDigit && p4.isDigit &&
        pySpace w1 && isUpperAZ c1 && isUpperAZ c2 then
      match rest with
      | c3 :: rest2 =>
        if isUpperAZ c3 then
          match rest2 with
          | w2 :: rest3 =>
            if pySpace w2 then some (rest3, [c3, c2, c1], [p4, p3, p2, p1]) else none
          | [] => none
        else if pySpace c3 then some (rest2, [c2, c1], [p4, p3, p2, p1]) else none
      | [] => none
    else none
  | _ => none

/-- `re.search(r"([\w\s]+)\s([A-Z]{2,3})\s(\d{4})$", ...)`: the captured
suburb group is the maximal `[\w\s]` run before the separator (the leftmost
match start), and must be non-empty. -/
def matchSimple (cs : List Char) : Option (List Char × List Char × List Char) :=
  match sspSuffix cs with
  | some (rev, st, pc) =>
    let runR := rev.takeWhile isWordSpace
    if runR.isEmpty then none else some (runR.reverse, st, pc)
  | none => none

/-- `re.search(r",\s*([\w\s]+)\s([A-Z]{2,3})\s(\d{4})$", ...)`: additionally
the character just before the `[\w\s]` run must be a comma.  (The captured
group may differ from `matchSimple`'s by leading whitespace eaten by `\s*`,
which the subsequent `.strip()` erases either way.) -/
def matchComma (cs : List Char) : Option (List Char × List Char × List Char) :=
  match sspSuffix cs with
  | some (rev, st, pc) =>
    let runR := rev.takeWhile isWordSpace
    if runR.isEmpty then none
    else
      match (rev.dropWhile isWordSpace).head? with
      | some c => if c = ',' then some (runR.reverse, st, pc) else none
      | none => none
  | none => none

/-- `parse_location` (lines 275-294): try the comma regex, then the simple
one, and return the stripped groups, defaulting to "N/A". -/
def parseLocation (location : String) : String × String × String :=
  let loc := pyStripChars location.data
  match matchComma loc with
  | some (g1, g2, g3) =>
    (String.mk (pyStripChars g1), String.mk (pyStripChars g2), String.mk (pyStripChars g3))
  | none =>
    match matchSimple loc with
    | some (g1, g2, g3) =>
      (String.mk (pyStripChars g1), String.mk (pyStripChars g2), String.mk (pyStripChars g3))
    | none => ("N/A", "N/A", "N/A")

/-- `extract_outlet_from_url` (lines 332-335): `re.search(r'/(\d+)/(?:[^/]+)$',
details_url)` — the second-to-last slash-separated segment when it is a
non-empty digit run preceded by a slash and followed by one final non-empty
segment. -/
def extractOutletFromUrl (detailsUrl : String) : String :=
  let parts := pySplitChar detailsUrl '/'
  if 3 ≤ parts.length ∧ parts.getD (parts.length - 1) "" ≠ "" ∧
      pyIsDigitStr (parts.getD (parts.length - 2) "")
  then parts.getD (parts.length - 2) ""
  else "N/A"

/-- The selector results of one successful detail-page attempt (all the
`safe_find_text` / `get_actual_website_url` / `extract_lat_long_from_maps`
outputs, which themselves never raise), as an oracle. -/
structure ServicePage where
  about : String
  location : String
  phone : String
  website : String
  latitude : String
  longitude : String
deriving DecidableEq

/-- The `data` dictionary of `scrape_service_details` (lines 357-398). -/
structure ServiceData where
  about : String
  location : String
  suburb : String
  state : String
  postal_code : String
  website : String
  phone : String
  latitude : String
  longitude : String
  outlet : String
deriving DecidableEq

/-- The initial `data` dictionary (lines 360-371). -/
def serviceDefaults (serviceUrl : String) : ServiceData :=
  { about := "N/A", location := "N/A", suburb := "N/A", state := "N/A"
    postal_code := "N/A", website := "N/A", phone := "N/A", latitude := "N/A"
    longitude := "N/A", outlet := extractOutletFromUrl serviceUrl }

/-- `location.replace("Address: ", "")`: remove every occurrence, scanning
left to right (Python `str.replace` with empty replacement). -/
def stripAddrAux : List Char → List Char
  | 'A' :: 'd' :: 'd' :: 'r' :: 'e' :: 's' :: 's' :: ':' :: ' ' :: rest => stripAddrAux rest
  | c :: rest => c :: stripAddrAux rest
  | [] => []

/-- `location.replace("Address: ", "")` on strings. -/
def pyReplaceAddress (s : String) : String :=
  String.mk (stripAddrAux s.data)

/-- `scrape_service_details` (lines 357-398): each attempt either raises
before any field of `data` is assigned (`none`) or completes and returns
(`some page`); after all attempts fail the defaults are returned. -/
def scrapeServiceDetails (attempts : List (Option ServicePage))
    (serviceUrl : String) : ServiceData :=
  match attempts with
  | [] => serviceDefaults serviceUrl
  | none :: rest => scrapeServiceDetails rest serviceUrl
  | some pg :: _ =>
    let location := pyStrip (pyReplaceAddress pg.location)
    let parsed := parseLocation location
    { about := pg.about, location := location
      suburb := parsed.1, state := parsed.2.1, postal_code := parsed.2.2
      website := pg.website, phone := pg.phone
      latitude := pg.latitude, longitude := pg.longitude
      outlet := extractOutletFromUrl serviceUrl }

/-- `get_column_index` (lines 439-445): first header matching the name
case-insensitively after stripping (0-based here; `ValueError` is `none`). -/
def getColumnIndex (sheet : List Row) (columnName : String) : Option Nat :=
  (sheet.headD []).findIdx? (fun h => pyStripLower h = pyStripLower columnName)

/-- `get_existing_services` (lines 447-453): the stripped services value of
the first data row whose outlet matches case-insensitively, else "". -/
def getExistingServices (sheet : List Row) (outlet : String) : String :=
  let headers := sheet.headD []
  match (sheet.drop 1).find?
      (fun row => pyStripLower (recordGet headers row "outlet") = pyStripLower outlet) with
  | some row => pyStrip (recordGet headers row "services")
  | none => ""

/-- The seven non-timestamp fields of a skipped-ledger entry (lines 460-469). -/
def skippedEntry (d : Dict) : List String :=
  [dictGetD d "council_name" "N/A", dictGetD d "category_name" "N/A",
   dictGetD d "subcategory_name" "N/A", dictGetD d "company_name" "N/A",
   dictGetD d "details_url" "N/A", dictGetD d "outlet" "N/A",
   dictGetD d "location" "N/A"]

/-- `log_skipped_data` (lines 455-479): append a timestamped entry unless an
existing data row (the header row is skipped) already carries the same seven
non-timestamp fields. -/
def logSkippedData (skipped : List Row) (d : Dict) (ts : String) : List Row :=
  let newEntry := skippedEntry d
  if (skipped.drop 1).any (fun row => row.drop 1 = newEntry) then skipped
  else skipped ++ [ts :: newEntry]

/-- Overwrite a single cell (gspread `update_cell`, 0-based here). -/
def updateRowCell (sheet : List Row) (i j : Nat) (v : String) : List Row :=
  sheet.set i ((sheet.getD i []).set j v)

/-- `update_google_sheets` (lines 481-493): overwrite the services cell of
the first data row whose outlet matches, and log the skipped entry; when no
row matches, nothing happens. -/
def updateGoogleSheets (sheet skipped : List Row) (outlet updatedCategories : String)
    (combined : Dict) (ts : String) : List Row × List Row :=
  match getColumnIndex sheet "services" with
  | none => (sheet, skipped)  -- raises ValueError in the source
  | some col =>
    let headers := sheet.headD []
    match (sheet.drop 1).findIdx?
        (fun row => pyStripLower (recordGet headers row "outlet") = pyStripLower outlet) with
    | some i => (updateRowCell sheet (i + 1) col updatedCategories,
                 logSkippedData skipped combined ts)
    | none => (sheet, skipped)

/-- `format_unique_categories` (lines 495-510): the sorted deduplicated valid
category/subcategory tags joined by ", ", or "N/A". -/
def formatUniqueCategories (d : Dict) : String :=
  let category := pyStrip (dictGetD d "category_name" "")
  let subcategory := pyStrip (dictGetD d "subcategory_name" "")
  let uniqueCategories :=
    (if category ≠ "" ∧ category ≠ "N/A" then [category] else []) ++
    (if subcategory ≠ "" ∧ subcategory ≠ "N/A" then [subcategory] else [])
  let sorted := sortedSet uniqueCategories
  if sorted.isEmpty then "N/A" else joinCS sorted

/-- The per-service body of `scrape_and_save`'s loop (lines 522-546), acting
on the output sheet and the skipped ledger, with the merged `combined_data`
dictionary given as the oracle input `d`. -/
def scrapeStep (sheet skipped : List Row) (d : Dict) (ts : String) :
    List Row × List Row :=
  let outlet := pyStrip (dictGetD d "outlet" "N/A")
  let existingServiceCategories := getExistingServices sheet outlet
  let newCategories := formatUniqueCategories d
  if existingServiceCategories ≠ "" then
    let allCategories := sortedSet (splitCS existingServiceCategories ++ splitCS newCategories)
    let updatedCategories := joinCS allCategories
    updateGoogleSheets sheet skipped outlet updatedCategories d ts
  else
    (saveToGoogleSheets sheet [dictSet d "services" newCategories] ts, skipped)

end Mc

/-! ## Claim-side predicates and concrete inputs -/

namespace Mcd

/-- The success condition of `firecrawl_scrape`'s retry loop: HTTP 200 with a
true `success` flag in the decoded body. -/
def fireOk (r : FireResp) : Prop :=
  r.status = 200 ∧ r.success = true

end Mcd

namespace Mc

/-- Bool check that `pre` is empty or ends in a character outside `[\w\s]`
(the leftmost-match condition of `parse_location`'s suburb group). -/
def lastNotWordSpace (pre : List Char) : Bool :=
  match pre.getLast? with
  | none => true
  | some c => !isWordSpace c

/-- The claim-side shape of a location string recognized by
`parse_location`: an optional prefix ending in a non-`[\w\s]` character
(e.g. the comma after a street part), a non-empty suburb run of `[\w\s]`
characters, one whitespace, a 2-or-3-uppercase-letter state, one whitespace
and a 4-digit postcode. -/
def LocShape (cs pre run st pc : List Char) (s1 s2 : Char) : Prop :=
  cs = pre ++ run ++ s1 :: (st ++ s2 :: pc) ∧
  run ≠ [] ∧ run.all isWordSpace = true ∧
  (st.length = 2 ∨ st.length = 3) ∧ st.all isUpperAZ = true ∧
  pc.length = 4 ∧ pc.all Char.isDigit = true ∧
  pySpace s1 = true ∧ pySpace s2 = true ∧ lastNotWordSpace pre = true

end Mc

/-- Pairwise inequality of rows outside the timestamp column: no two of
these rows agree on all fields but the first. -/
def pairwiseNeRows : List Row → Bool
  | [] => true
  | r :: rs => rs.all (fun x => decide (x.drop 1 ≠ r.drop 1)) && pairwiseNeRows rs

/-- The skipped-ledger invariant claimed by the spec: no two data rows (the
header is row 0) agree on every field except the timestamp. -/
def noDupData (ledger : List Row) : Bool :=
  pairwiseNeRows (ledger.drop 1)

/-- Concrete tracking table for claim C3: one Banyule row whose subcategory
URL is "https://sub/A". -/
def c3Tracking : List Row :=
  [["Council", "Council URL", "Subcategory URL", "Result"],
   ["Banyule Council", "https://x.au/Victoria/", "https://sub/A", "5"]]

/-- Concrete output sheet for claim C1's counterexample: outlet "77" already
has a row, but its services cell is empty. -/
def c1Sheet : List Row :=
  [Mc.HEADERS,
   ["t0", "Victoria", "Banyule Council", "", "Acme", "area", "No", "about",
    "77", "https://a/77/x", "loc", "sub", "VIC", "3000", "-37", "145", "w",
    "p", "https://sub/A"]]

/-- Concrete combined data for claim C1's counterexample: outlet "77" again,
with one category and one subcategory tag. -/
def c1Data : Mc.Dict :=
  [("outlet", "77"), ("category_name", "Aged Care"),
   ("subcategory_name", "Transport"), ("company_name", "Acme")]

/-- Concrete output sheet for claim C4's counterexample: outlet "77" has a
row whose services cell holds "A". -/
def c4Sheet : List Row :=
  [Mc.HEADERS,
   ["t0", "Victoria", "Banyule Council", "A", "Acme", "area", "No", "about",
    "77", "https://a/77/x", "loc", "sub", "VIC", "3000", "-37", "145", "w",
    "p", "https://sub/A"]]

/-- Concrete output sheet for claim C5's counterexample: company "Acme" with
outlet "77" already stored with services "A". -/
def c5Sheet : List Row :=
  [["h"],
   ["t0", "v", "Gabo Island Council", "A", "Acme", "area", "No", "ab", "77",
    "l", "loc", "s", "st", "p", "la", "lo", "w", "ph", "u"]]

/-- Concrete company for claim C5's counterexample. -/
def c5Company : Mcd.DirCompany :=
  { company_name := "Acme", service_area := "area", ndis_provider := "No" }

/-- Concrete details record for claim C5's counterexample. -/
def c5Details : Mcd.DirDetails :=
  { location := "loc", suburb := "s", state := "st", postal_code := "p"
    phone := "ph", website := "w", outlet_id := "77", latitude := "la"
    longitude := "lo", about_us := "ab" }

/-! ## Theorems -/

/-- Claim C9: for every location text with at least three whitespace-separated
words, `extract_suburb_state_postal` returns the third-to-last word as suburb,
the second-to-last as state and the last as postal code (so a multi-word
suburb is truncated to its final word); with fewer than three words all three
fields are "N/A". -/
theorem C9_extract_suburb_state_postal (t : String) :
    (∀ l a b c, pyWords t = l ++ [a, b, c] →
      Mcd.extractSuburbStatePostal t = ⟨a, b, c⟩) ∧
    ((pyWords t).length < 3 →
      Mcd.extractSuburbStatePostal t = ⟨"N/A", "N/A", "N/A"⟩) := by
  constructor
  · intro l a b c h
    simp only [Mcd.extractSuburbStatePostal, h]
    rw [if_pos (by simp)]
    have hlen : (l ++ [a, b, c]).length = l.length + 3 := by simp
    have h1 : (l ++ [a, b, c]).getD ((l ++ [a, b, c]).length - 3) "" = a := by
      rw [hlen, show l.length + 3 - 3 = l.length from by omega,
        List.getD_append_right _ _ _ _ (Nat.le_refl _), Nat.sub_self]
      rfl
    have h2 : (l ++ [a, b, c]).getD ((l ++ [a, b, c]).length - 2) "" = b := by
      rw [hlen, show l.length + 3 - 2 = l.length + 1 from by omega,
        List.getD_append_right _ _ _ _ (Nat.le_add_right _ _),
        Nat.add_sub_cancel_left]
      rfl
    have h3 : (l ++ [a, b, c]).getD ((l ++ [a, b, c]).length - 1) "" = c := by
      rw [hlen, show l.length + 3 - 1 = l.length + 2 from by omega,
        List.getD_append_right _ _ _ _ (Nat.le_add_right _ _),
        Nat.add_sub_cancel_left]
      rfl
    simp only [Mcd.SSP.mk.injEq]
    exact ⟨h1, h2, h3⟩
  · intro hlt
    simp only [Mcd.extractSuburbStatePostal]
    rw [if_neg (by omega)]

/-- Witness for C9 at a concrete four-word location text. -/
theorem C9_witness :
    Mcd.extractSuburbStatePostal "12 Foo St Richmond VIC 3121" =
      ⟨"Richmond", "VIC", "3121"⟩ :=
  (C9_extract_suburb_state_postal "12 Foo St Richmond VIC 3121").1
    ["12", "Foo", "St"] "Richmond" "VIC" "3121" (by decide)

/-- Claim C10, counterexample: on a whitespace-only search-summary element
text, `extract_result_count` raises `IndexError` (modelled as `.error ()`)
instead of returning an integer. -/
theorem C10_counterexample :
    Scrapee.extractResultCount (some (some " ")) = .error () := by rfl

/-- Claim C10 (amended): `extract_result_count` returns 0 on a failed fetch
or a missing element; on an element text with at least one token it returns a
non-negative integer — the leading token's value when that token is all
digits, 0 otherwise.  (On token-less element text it raises instead, see the
counterexample.) -/
theorem C10_result_count (fetched : Option (Option String)) :
    (fetched = none → Scrapee.extractResultCount fetched = .ok 0) ∧
    (fetched = some none → Scrapee.extractResultCount fetched = .ok 0) ∧
    (∀ txt tok rest, fetched = some (some txt) →
      pyWords (pyStrip txt) = tok :: rest →
      ∃ n : ℤ, Scrapee.extractResultCount fetched = .ok n ∧ 0 ≤ n ∧
        (pyIsDigitStr tok = true → n = natOfDigits tok.data) ∧
        (pyIsDigitStr tok = false → n = 0)) := by
  refine ⟨fun h => by subst h; rfl, fun h => by subst h; rfl, ?_⟩
  intro txt tok rest hf h
  subst hf
  simp only [Scrapee.extractResultCount, h]
  cases hd : pyIsDigitStr tok with
  | true =>
    refine ⟨natOfDigits tok.data, by simp, Int.natCast_nonneg _, fun _ => rfl, ?_⟩
    intro hc; simp at hc
  | false =>
    refine ⟨0, by simp, le_refl _, ?_, fun _ => rfl⟩
    intro hc; simp at hc

/-- Witness for C10 on a concrete summary text with a digit leading token. -/
theorem C10_witness :
    Scrapee.extractResultCount (some (some "12 results")) = .ok 12 := by
  obtain ⟨n, h1, _, h3, _⟩ :=
    (C10_result_count (some (some "12 results"))).2.2 "12 results" "12"
      ["results"] rfl (by decide)
  have hn : n = 12 := by rw [h3 (by decide)]; decide
  rw [h1, hn]

/-- Claim C3: `fetch_subcategory_links` is supposed to return all of the
council-filtered links when the last-scraped URL matches none of them (its
own warning message says "returning all links"), but the `dropwhile` result
has already replaced the list, so it returns the empty list.  On the same
table, the unfiltered call does return the single Banyule link. -/
theorem C3_no_match_returns_empty :
    Mc.fetchSubcategoryLinks c3Tracking (some "https://sub/B") = [] ∧
    Mc.fetchSubcategoryLinks c3Tracking none =
      [{ main_state := "Victoria", council_name := "Banyule Council",
         subcategory_url := "https://sub/A" }] := by
  exact ⟨by decide, by decide⟩

/-- Claim C6: `firecrawl_scrape` issues at most 3 HTTP attempts, returns the
decoded response of the first attempt with HTTP status 200 and a true success
flag (no earlier attempt succeeding, and one 10-to-20-second delay having
been slept per failed attempt before it), and returns `none` exactly when all
3 attempts fail, after sleeping a delay for each of them. -/
theorem C6_firecrawl_retry (responses : Nat → Mcd.FireResp) (rng : Nat → ℚ)
    (hrng : ∀ n, 10 ≤ rng n ∧ rng n ≤ 20) :
    (∀ s ∈ (Mcd.firecrawlScrape responses rng).2, 10 ≤ s ∧ s ≤ 20) ∧
    (∀ r, (Mcd.firecrawlScrape responses rng).1 = some r →
      ∃ i, i < 3 ∧ responses i = r ∧ Mcd.fireOk r ∧
        (∀ j, j < i → ¬ Mcd.fireOk (responses j)) ∧
        (Mcd.firecrawlScrape responses rng).2.length = i) ∧
    ((Mcd.firecrawlScrape responses rng).1 = none →
      (∀ j, j < 3 → ¬ Mcd.fireOk (responses j)) ∧
      (Mcd.firecrawlScrape responses rng).2.length = 3) := by
  by_cases h0 : Mcd.fireOk (responses 0)
  · have h0' : (responses 0).status = 200 ∧ (responses 0).success = true := h0
    have e : Mcd.firecrawlScrape responses rng = (some (responses 0), []) := by
      simp only [Mcd.firecrawlScrape, Mcd.firecrawlGo]
      rw [if_pos h0']
    rw [e]
    refine ⟨by simp, ?_, by simp⟩
    intro r hr
    obtain rfl : responses 0 = r := by simpa using hr
    exact ⟨0, by omega, rfl, h0, fun j hj => by omega, rfl⟩
  · have h0' : ¬ ((responses 0).status = 200 ∧ (responses 0).success = true) := h0
    by_cases h1 : Mcd.fireOk (responses 1)
    · have h1' : (responses 1).status = 200 ∧ (responses 1).success = true := h1
      have e : Mcd.firecrawlScrape responses rng = (some (responses 1), [rng 0]) := by
        simp only [Mcd.firecrawlScrape, Mcd.firecrawlGo]
        rw [if_neg h0', if_pos h1']
      rw [e]
      refine ⟨?_, ?_, by simp⟩
      · intro s hs
        obtain rfl : s = rng 0 := by simpa using hs
        exact hrng 0
      · intro r hr
        obtain rfl : responses 1 = r := by simpa using hr
        refine ⟨1, by omega, rfl, h1, ?_, rfl⟩
        intro j hj
        interval_cases j
        exact h0
    · have h1' : ¬ ((responses 1).status = 200 ∧ (responses 1).success = true) := h1
      by_cases h2 : Mcd.fireOk (responses 2)
      · have h2' : (responses 2).status = 200 ∧ (responses 2).success = true := h2
        have e : Mcd.firecrawlScrape responses rng =
            (some (responses 2), [rng 0, rng 1]) := by
          simp only [Mcd.firecrawlScrape, Mcd.firecrawlGo]
          rw [if_neg h0', if_neg h1', if_pos h2']
        rw [e]
        refine ⟨?_, ?_, by simp⟩
        · intro s hs
          rcases (by simpa using hs : s = rng 0 ∨ s = rng 1) with rfl | rfl
          · exact hrng 0
          · exact hrng 1
        · intro r hr
          obtain rfl : responses 2 = r := by simpa using hr
          refine ⟨2, by omega, rfl, h2, ?_, rfl⟩
          intro j hj
          interval_cases j
          · exact h0
          · exact h1
      · have h2' : ¬ ((responses 2).status = 200 ∧ (responses 2).success = true) := h2
        have e : Mcd.firecrawlScrape responses rng =
            (none, [rng 0, rng 1, rng 2]) := by
          simp only [Mcd.firecrawlScrape, Mcd.firecrawlGo]
          rw [if_neg h0', if_neg h1', if_neg h2']
        rw [e]
        refine ⟨?_, by simp, ?_⟩
        · intro s hs
          rcases (by simpa using hs : s = rng 0 ∨ s = rng 1 ∨ s = rng 2) with
            rfl | rfl | rfl
          · exact hrng 0
          · exact hrng 1
          · exact hrng 2
        · intro _
          refine ⟨?_, rfl⟩
          intro j hj
          interval_cases j
          · exact h0
          · exact h1
          · exact h2

/-- Witness for C6: with every attempt failing, the loop sleeps three delays
and gives up. -/
theorem C6_witness :
    (Mcd.firecrawlScrape (fun _ => ⟨500, false⟩) (fun _ => (15 : ℚ))).2.length = 3 :=
  ((C6_firecrawl_retry (fun _ => ⟨500, false⟩) (fun _ => (15 : ℚ))
    (fun _ => ⟨by norm_num, by norm_num⟩)).2.2 rfl).2

/-- Appending a row whose non-timestamp fields differ from every present row
preserves pairwise inequality outside the timestamp column. -/
theorem pairwiseNeRows_append_singleton (l : List Row) (r : Row)
    (hl : pairwiseNeRows l = true) (hr : ∀ x ∈ l, x.drop 1 ≠ r.drop 1) :
    pairwiseNeRows (l ++ [r]) = true := by
  induction l with
  | nil => simp [pairwiseNeRows]
  | cons a t ih =>
    simp only [pairwiseNeRows, Bool.and_eq_true, List.all_eq_true] at hl
    simp only [List.cons_append, pairwiseNeRows, Bool.and_eq_true, List.all_eq_true]
    refine ⟨?_, ih hl.2 (fun x hx => hr x (List.mem_cons_of_mem _ hx))⟩
    intro x hx
    rcases List.mem_append.1 hx with h | h
    · exact hl.1 x h
    · simp only [List.mem_singleton] at h
      subst h
      exact decide_eq_true (fun he => hr a (List.mem_cons_self _ _) he.symm)

/-- One `log_skipped_data` call preserves the no-duplicate-data-rows
invariant of the skipped ledger. -/
theorem logSkippedData_noDup (led : List Row) (d : Mc.Dict) (ts : String)
    (h : noDupData led = true) : noDupData (Mc.logSkippedData led d ts) = true := by
  rw [Mc.logSkippedData]
  split
  · exact h
  · rename_i hfalse
    cases led with
    | nil => simp [noDupData, pairwiseNeRows]
    | cons hd tl =>
      simp only [noDupData, List.drop_succ_cons, List.drop_zero] at h
      simp only [noDupData, List.cons_append, List.drop_succ_cons, List.drop_zero]
      apply pairwiseNeRows_append_singleton tl _ h
      intro x hx hdrop
      apply hfalse
      simp only [List.drop_succ_cons, List.drop_zero, List.any_eq_true]
      exact ⟨x, hx, by simpa using hdrop⟩

/-- Claim C5 (amended, for the mycommunity script): `log_skipped_data`
appends only when no existing data row of the ledger carries the same seven
non-timestamp fields, and consequently any sequence of such logging
operations preserves the invariant that no two data rows of the ledger agree
on all fields except the timestamp.  (The mycommunitydirectory script
violates the invariant, see the counterexample.) -/
theorem C5_skipped_ledger_nodup (led : List Row) (d : Mc.Dict) (ts : String)
    (ops : List (Mc.Dict × String)) (h : noDupData led = true) :
    (Mc.logSkippedData led d ts ≠ led →
      ∀ row ∈ led.drop 1, row.drop 1 ≠ Mc.skippedEntry d) ∧
    noDupData (ops.foldl (fun L p => Mc.logSkippedData L p.1 p.2) led) = true := by
  constructor
  · intro hne row hrow hdrop
    apply hne
    rw [Mc.logSkippedData]
    rw [if_pos ?_]
    simp only [List.any_eq_true]
    exact ⟨row, hrow, by simpa using hdrop⟩
  · induction ops generalizing led with
    | nil => exact h
    | cons op rest ih => exact ih _ (logSkippedData_noDup _ _ _ h)

/-- Witness for C5: one logging operation on a fresh one-header ledger keeps
the invariant. -/
theorem C5_witness :
    noDupData (([([("outlet", "9")], "t")] : List (Mc.Dict × String)).foldl
      (fun L p => Mc.logSkippedData L p.1 p.2) [["h"]]) = true :=
  (C5_skipped_ledger_nodup [["h"]] [] "t" [([("outlet", "9")], "t")]
    (by decide)).2

/-- Claim C5, counterexample (mycommunitydirectory): within one
`scrape_subcategory` pass the duplicate check uses a snapshot taken before
the loop, so two identical companies are both appended to the skipped
ledger, which afterwards holds two rows agreeing on every non-timestamp
field. -/
theorem C5_counterexample :
    let st := Mcd.scrapeSubcategoryCore true ["x", "x", "x", "A"] "u" "ts"
      c5Sheet [["h"]] [(c5Company, "l", c5Details), (c5Company, "l", c5Details)]
    st.skipped.length = 3 ∧
      (st.skipped.getD 1 []).drop 1 = (st.skipped.getD 2 []).drop 1 := by
  decide

/-- A cell write leaves every other cell of the row unchanged. -/
theorem cellAt_set_ne (r : Row) (j : Nat) (v : String) (k : Nat) (h : k ≠ j) :
    cellAt (r.set j v) k = cellAt r k := by
  simp [cellAt, List.getD_eq_getElem?_getD, List.getElem?_set_ne (Ne.symm h)]

/-- A single-cell sheet update leaves every cell outside the written column
unchanged (at the `cellAt`/`getD` reading level). -/
theorem setCell_cells (sheet : List Row) (m j : Nat) (v : String) (k k' : Nat)
    (h : k' ≠ j) :
    cellAt ((sheet.set m ((sheet.getD m []).set j v)).getD k []) k' =
      cellAt (sheet.getD k []) k' := by
  by_cases hkm : k = m
  · subst hkm
    by_cases hlt : k < sheet.length
    · rw [show (sheet.set k ((sheet.getD k []).set j v)).getD k [] =
          (sheet.getD k []).set j v from by
        simp [List.getD_eq_getElem?_getD, List.getElem?_set_eq_of_lt _ hlt]]
      exact cellAt_set_ne _ _ _ _ h
    · rw [List.set_eq_of_length_le (by omega)]
  · rw [show (sheet.set m ((sheet.getD m []).set j v)).getD k [] =
      sheet.getD k [] from by
        simp [List.getD_eq_getElem?_getD, List.getElem?_set_ne (Ne.symm hkm)]]

/-- Claim C4 (amended): every write of either script to the output store is
one of — an append after the existing rows, the header-row insertion at the
top, or an in-place overwrite of the services column (column index 3) of one
existing row; no row is removed, and updates touch no cell outside the
services column.  Rows are NOT strictly append-only (see the
counterexample). -/
theorem C4_write_effects (sheet skipped : List Row) (row : Row)
    (data : List Mc.Dict) (outlet upd ts : String) (combined : Mc.Dict)
    (st : Mcd.DirState) (snapshot : List (String × String × String × String))
    (cat : Mcd.CatInfo) (ms url : String) (c : Mcd.DirCompany) (link : String)
    (d : Mcd.DirDetails) (hh : sheet.headD [] = Mc.HEADERS) :
    (sheet <+: Mcd.appendToSheet sheet row) ∧
    (skipped <+: Mcd.appendToSkippedSheet skipped row) ∧
    (skipped <+: Mc.logSkippedData skipped combined ts) ∧
    (sheet <:+: Mc.saveToGoogleSheets sheet data ts) ∧
    ((Mc.updateGoogleSheets sheet skipped outlet upd combined ts).1.length =
        sheet.length ∧
      ∀ k k', k' ≠ 3 →
        cellAt ((Mc.updateGoogleSheets sheet skipped outlet upd combined ts).1.getD k []) k' =
          cellAt (sheet.getD k []) k') ∧
    ((st.sheet <+: (Mcd.dirProcessCompany snapshot cat ms url ts st c link d).sheet) ∨
      ((Mcd.dirProcessCompany snapshot cat ms url ts st c link d).sheet.length =
          st.sheet.length ∧
        ∀ k k', k' ≠ 3 →
          cellAt ((Mcd.dirProcessCompany snapshot cat ms url ts st c link d).sheet.getD k []) k' =
            cellAt (st.sheet.getD k []) k')) := by
  refine ⟨List.prefix_append _ _, List.prefix_append _ _, ?_, ?_, ?_, ?_⟩
  · rw [Mc.logSkippedData]
    split
    · exact List.prefix_refl _
    · exact List.prefix_append _ _
  · rw [Mc.saveToGoogleSheets]
    split
    · exact List.infix_refl _
    · split
      · exact ⟨[Mc.HEADERS], _, rfl⟩
      · exact ⟨[], _, rfl⟩
  · have hcol : Mc.getColumnIndex sheet "services" = some 3 := by
      rw [Mc.getColumnIndex, hh]; decide
    simp only [Mc.updateGoogleSheets, hcol]
    split
    · rename_i i hidx
      exact ⟨by simp [Mc.updateRowCell],
        fun k k' hk' => setCell_cells sheet (i + 1) 3 upd k k' hk'⟩
    · exact ⟨rfl, fun _ _ _ => rfl⟩
  · simp only [Mcd.dirProcessCompany]
    split
    · right
      constructor
      · split
        · split
          · rfl
          · simp [Mcd.updateRowCell]
        · rfl
      · intro k k' hk'
        split
        · split
          · rfl
          · exact setCell_cells st.sheet _ 3 _ k k' hk'
        · rfl
    · left; exact List.prefix_append _ _

/-- Witness for C4 on a concrete sheet with the standard header row. -/
theorem C4_witness :
    c4Sheet <:+: Mc.saveToGoogleSheets c4Sheet [] "ts" :=
  (C4_write_effects c4Sheet [] [] [] "77" "A, B" "ts" [] ⟨[], [], []⟩ []
    ⟨"A", "B", "A, B"⟩ "m" "u" ⟨"Acme", "a", "No"⟩ "l" Mcd.dirDetailsNA
    (by decide)).2.2.2.1

/-- Claim C4, counterexample: `update_google_sheets` overwrites the services
cell of a previously written row in place, so that row is modified. -/
theorem C4_counterexample :
    (Mc.updateGoogleSheets c4Sheet [] "77" "A, B" [] "ts").1.getD 1 [] ≠
      c4Sheet.getD 1 [] := by
  decide

/-- The tracking-URL extraction never yields an empty URL (the source skips
falsy URLs), so the module-level truthiness test cannot reject a URL that
actually occurs in the list. -/
theorem empty_not_mem_getSubcategoryUrls (tracking : List Row) :
    "" ∉ Mcd.getSubcategoryUrls tracking := by
  intro h
  rw [Mcd.getSubcategoryUrls, List.mem_filterMap] at h
  obtain ⟨row, _, hrow⟩ := h
  by_cases hc : cellAt row 5 ≠ "" ∧ cellAt row 6 ≠ "0" ∧
      cellAt row 0 = Mcd.COUNCIL_NAME
  · rw [if_pos hc] at hrow
    exact hc.1 (Option.some_injective _ hrow)
  · rw [if_neg hc] at hrow
    cases hrow

/-- `l.indexOf u` locates the first occurrence: the list splits around it and
the prefix avoids `u`. -/
theorem indexOf_split {α} [DecidableEq α] (u : α) (l : List α) (h : u ∈ l) :
    l = l.take (l.indexOf u) ++ u :: l.drop (l.indexOf u + 1) ∧
      u ∉ l.take (l.indexOf u) := by
  induction l with
  | nil => cases h
  | cons a t ih =>
    by_cases hau : a = u
    · subst hau
      simp [List.indexOf_cons_self]
    · rw [List.indexOf_cons_ne _ hau]
      have hu : u ∈ t := by
        rcases List.mem_cons.1 h with h' | h'
        · exact absurd h'.symm hau
        · exact h'
      obtain ⟨h1, h2⟩ := ih hu
      refine ⟨?_, ?_⟩
      · show a :: t = (a :: t).take (t.indexOf u + 1) ++
          u :: (a :: t).drop (t.indexOf u + 1 + 1)
        rw [List.take_succ_cons, List.drop_succ_cons, List.cons_append]
        exact congrArg (a :: ·) h1
      · show u ∉ (a :: t).take (t.indexOf u + 1)
        rw [List.take_succ_cons]
        simp only [List.mem_cons, not_or]
        exact ⟨fun he => hau he.symm, h2⟩

/-- Claim C2: on each run of the mycommunitydirectory script, when the output
sheet has more than a header row and its last row's subcategory URL occurs in
the council-filtered tracking list, the processed URLs are exactly those
strictly after that (first) occurrence; when the sheet has at most one row,
or the last URL is absent from the list, all tracking URLs are processed from
the first. -/
theorem C2_resume_protocol (tracking outputData : List Row)
    (_htr : ∀ r ∈ tracking.drop 1, 7 ≤ r.length)
    (_hout : ∀ r, outputData.getLast? = some r → 19 ≤ r.length) :
    (∀ lastRow, 1 < outputData.length → outputData.getLast? = some lastRow →
      cellAt lastRow 18 ∈ Mcd.getSubcategoryUrls tracking →
      ∃ pre, Mcd.getSubcategoryUrls tracking =
          pre ++ cellAt lastRow 18 :: Mcd.processedUrls tracking outputData ∧
        cellAt lastRow 18 ∉ pre) ∧
    (outputData.length ≤ 1 →
      Mcd.processedUrls tracking outputData = Mcd.getSubcategoryUrls tracking) ∧
    (∀ lastRow, outputData.getLast? = some lastRow →
      cellAt lastRow 18 ∉ Mcd.getSubcategoryUrls tracking →
      Mcd.processedUrls tracking outputData = Mcd.getSubcategoryUrls tracking) := by
  refine ⟨?_, ?_, ?_⟩
  · intro lastRow hlen hlast hmem
    have hentry : Mcd.getLastScrapedEntry outputData =
        some (cellAt lastRow 18, cellAt lastRow 4) := by
      rw [Mcd.getLastScrapedEntry, if_pos hlen, hlast]
    have hne : cellAt lastRow 18 ≠ "" := by
      intro he
      exact empty_not_mem_getSubcategoryUrls tracking (he ▸ hmem)
    have hres : Mcd.processedUrls tracking outputData =
        (Mcd.getSubcategoryUrls tracking).drop
          ((Mcd.getSubcategoryUrls tracking).indexOf (cellAt lastRow 18) + 1) := by
      rw [Mcd.processedUrls, hentry]
      simp only [Option.map_some']
      rw [Mcd.resumeStart, if_pos ⟨hne, hmem⟩]
    obtain ⟨h1, h2⟩ := indexOf_split (cellAt lastRow 18)
      (Mcd.getSubcategoryUrls tracking) hmem
    exact ⟨(Mcd.getSubcategoryUrls tracking).take
      ((Mcd.getSubcategoryUrls tracking).indexOf (cellAt lastRow 18)),
      by rw [hres]; exact h1, h2⟩
  · intro hle
    have hentry : Mcd.getLastScrapedEntry outputData = none := by
      rw [Mcd.getLastScrapedEntry, if_neg (by omega)]
    rw [Mcd.processedUrls, hentry]
    simp only [Option.map_none']
    rw [Mcd.resumeStart, List.drop_zero]
  · intro lastRow hlast hnot
    by_cases hlen : 1 < outputData.length
    · have hentry : Mcd.getLastScrapedEntry outputData =
          some (cellAt lastRow 18, cellAt lastRow 4) := by
        rw [Mcd.getLastScrapedEntry, if_pos hlen, hlast]
      rw [Mcd.processedUrls, hentry]
      simp only [Option.map_some']
      rw [Mcd.resumeStart, if_neg (fun hc => hnot hc.2), List.drop_zero]
    · have hentry : Mcd.getLastScrapedEntry outputData = none := by
        rw [Mcd.getLastScrapedEntry, if_neg hlen]
      rw [Mcd.processedUrls, hentry]
      simp only [Option.map_none']
      rw [Mcd.resumeStart, List.drop_zero]

/-- Witness for C2 on a one-row tracking table and an empty output sheet. -/
theorem C2_witness :
    Mcd.processedUrls
        [["h"], ["Gabo Island Council", "", "", "", "", "https://s/A", "5"]] [] =
      Mcd.getSubcategoryUrls
        [["h"], ["Gabo Island Council", "", "", "", "", "https://s/A", "5"]] :=
  (C2_resume_protocol
    [["h"], ["Gabo Island Council", "", "", "", "", "https://s/A", "5"]] []
    (by decide) (fun r h => by simp at h)).2.1 (by decide)

/-- Membership is preserved by ordered insertion. -/
theorem mem_insortStr (x y : String) (l : List String) :
    y ∈ insortStr x l ↔ y = x ∨ y ∈ l := by
  induction l with
  | nil => simp [insortStr]
  | cons a t ih =>
    rw [insortStr]
    split
    · simp [List.mem_cons]
    · simp only [List.mem_cons, ih]
      tauto

/-- Membership is preserved by the insertion sort. -/
theorem mem_sortStrs (y : String) (l : List String) :
    y ∈ sortStrs l ↔ y ∈ l := by
  induction l with
  | nil => simp [sortStrs]
  | cons a t ih => simp [sortStrs, mem_insortStr, ih]

/-- Ordered insertion of a fresh element preserves `Nodup`. -/
theorem nodup_insortStr (x : String) (l : List String) (hx : x ∉ l)
    (h : l.Nodup) : (insortStr x l).Nodup := by
  induction l with
  | nil => simp [insortStr]
  | cons a t ih =>
    rw [insortStr]
    split
    · exact List.nodup_cons.2 ⟨by simpa using hx, h⟩
    · rw [List.nodup_cons] at h
      refine List.nodup_cons.2 ⟨?_, ih (fun hm => hx (List.mem_cons_of_mem _ hm)) h.2⟩
      rw [mem_insortStr]
      rintro (rfl | hm)
      · exact hx (List.mem_cons_self _ _)
      · exact h.1 hm

/-- Insertion sort preserves `Nodup`. -/
theorem nodup_sortStrs (l : List String) (h : l.Nodup) : (sortStrs l).Nodup := by
  induction l with
  | nil => simp [sortStrs]
  | cons a t ih =>
    rw [List.nodup_cons] at h
    exact nodup_insortStr a _ (by rw [mem_sortStrs]; exact h.1) (ih h.2)

/-- `sorted(set(l))` has exactly the members of `l`. -/
theorem mem_sortedSet (y : String) (l : List String) :
    y ∈ sortedSet l ↔ y ∈ l := by
  rw [sortedSet, mem_sortStrs, List.mem_dedup]

/-- `sorted(set(l))` is duplicate-free. -/
theorem nodup_sortedSet (l : List String) : (sortedSet l).Nodup :=
  nodup_sortStrs _ (List.nodup_dedup l)

/-- A successful `findIdx?` pins the index and the found element. -/
theorem findIdx?_find? {α} (p : α → Bool) (l : List α) (i : Nat) (d : α)
    (h : l.findIdx? p = some i) :
    i < l.length ∧ l.find? p = some (l.getD i d) := by
  induction l generalizing i with
  | nil => simp at h
  | cons a t ih =>
    rw [List.findIdx?_cons] at h
    by_cases hp : p a
    · rw [if_pos hp] at h
      obtain rfl : i = 0 := by simpa using h.symm
      simp [List.find?_cons_of_pos _ hp]
    · rw [if_neg hp] at h
      simp only [List.findIdx?_succ, Option.map_eq_some'] at h
      obtain ⟨j, hj, rfl⟩ := h
      obtain ⟨h1, h2⟩ := ih j hj
      refine ⟨by simpa using h1, ?_⟩
      rw [List.find?_cons_of_neg _ hp, h2]
      rfl

/-- Writing a cell within the sheet's and the row's bounds makes that cell
hold the written value. -/
theorem cellAt_setCell_self (sheet : List Row) (m j : Nat) (v : String)
    (hm : m < sheet.length) (hj : j < (sheet.getD m []).length) :
    cellAt ((sheet.set m ((sheet.getD m []).set j v)).getD m []) j = v := by
  have hgot : (sheet.set m ((sheet.getD m []).set j v)).getD m [] =
      (sheet.getD m []).set j v := by
    simp [List.getD_eq_getElem?_getD, List.getElem?_set_eq_of_lt _ hm]
  rw [hgot, cellAt]
  rw [List.getD_eq_getElem?_getD] at hj
  simp [List.getD_eq_getElem?_getD, List.getElem?_set_eq_of_lt _ hj]

/-- Claim C1 (amended): in the mycommunity script, when the scraped
business's outlet matches an existing row whose stored services value is
non-empty, `scrape_and_save` appends no row: the sheet keeps its length,
every other row is untouched, the matched (first such) row changes only in
its services cell, and that cell receives the comma-separated join of a
duplicate-free list whose members are exactly the union of the previously
stored tags and the newly formatted category/subcategory tags (when the
matching row's services cell is empty a new row is appended instead — see
the counterexample).  In the mycommunitydirectory script the merge is keyed
by the (company name, outlet id) pair, not by outlet alone: when that pair
maps to a non-empty stored services value, `scrape_subcategory` appends no
row, touches no cell outside the services column, leaves every row other
than the first row whose company-name column equals the company unchanged,
and rewrites that row's services cell (if at all) to the comma-separated
join of a duplicate-free union of the stored and newly scraped tags; when
the pair is absent or maps to an empty value — even if the outlet already
has a row under another company name, see the counterexample — a new row is
appended instead. -/
theorem C1_merge_into_existing_row (sheet skipped : List Row) (d : Mc.Dict)
    (ts : String) (st : Mcd.DirState)
    (snapshot : List (String × String × String × String)) (cat : Mcd.CatInfo)
    (ms url dts : String) (c : Mcd.DirCompany) (link : String)
    (dd : Mcd.DirDetails)
    (hh : sheet.headD [] = Mc.HEADERS)
    (hrows : ∀ r ∈ sheet.drop 1, 4 ≤ r.length)
    (hexist : Mc.getExistingServices sheet
      (pyStrip (Mc.dictGetD d "outlet" "N/A")) ≠ "") :
    (∃ i, (sheet.drop 1).findIdx?
        (fun row => pyStripLower (Mc.recordGet (sheet.headD []) row "outlet") =
          pyStripLower (pyStrip (Mc.dictGetD d "outlet" "N/A"))) = some i ∧
      (Mc.scrapeStep sheet skipped d ts).1.length = sheet.length ∧
      (∀ k, k ≠ i + 1 →
        (Mc.scrapeStep sheet skipped d ts).1.getD k [] = sheet.getD k []) ∧
      (∀ j, j ≠ 3 →
        cellAt ((Mc.scrapeStep sheet skipped d ts).1.getD (i + 1) []) j =
          cellAt (sheet.getD (i + 1) []) j) ∧
      ∃ u, cellAt ((Mc.scrapeStep sheet skipped d ts).1.getD (i + 1) []) 3 =
          joinCS u ∧ u.Nodup ∧
        ∀ t, t ∈ u ↔
          (t ∈ splitCS (Mc.getExistingServices sheet
              (pyStrip (Mc.dictGetD d "outlet" "N/A"))) ∨
           t ∈ splitCS (Mc.formatUniqueCategories d))) ∧
    ((Mcd.assocGet st.existing (c.company_name, dd.outlet_id)).getD "" ≠ "" →
      (Mcd.dirProcessCompany snapshot cat ms url dts st c link dd).sheet.length =
          st.sheet.length ∧
      (∀ k j, j ≠ 3 →
        cellAt ((Mcd.dirProcessCompany snapshot cat ms url dts st c link dd).sheet.getD k []) j =
          cellAt (st.sheet.getD k []) j) ∧
      (∀ k, Mcd.findRowByCol st.sheet 4 c.company_name ≠ some k →
        (Mcd.dirProcessCompany snapshot cat ms url dts st c link dd).sheet.getD k [] =
          st.sheet.getD k []) ∧
      (∀ k, Mcd.findRowByCol st.sheet 4 c.company_name = some k →
        (Mcd.dirProcessCompany snapshot cat ms url dts st c link dd).sheet.getD k [] =
            st.sheet.getD k [] ∨
          ∃ u, cellAt ((Mcd.dirProcessCompany snapshot cat ms url dts st c link dd).sheet.getD k []) 3 =
              joinCS u ∧ u.Nodup ∧
            ∀ t, t ∈ u ↔
              (t ∈ splitCS ((Mcd.assocGet st.existing
                  (c.company_name, dd.outlet_id)).getD "") ∨
               t ∈ splitCS cat.services))) ∧
    ((Mcd.assocGet st.existing (c.company_name, dd.outlet_id)).getD "" = "" →
      (Mcd.dirProcessCompany snapshot cat ms url dts st c link dd).sheet =
        st.sheet ++ [Mcd.dirNewRow ms cat url dts c link dd]) := by
  refine ⟨?_, ?_, ?_⟩
  · have hcol : Mc.getColumnIndex sheet "services" = some 3 := by
      rw [Mc.getColumnIndex, hh]; decide
    simp only [Mc.scrapeStep]
    rw [if_pos hexist]
    simp only [Mc.updateGoogleSheets, hcol]
    split
    · rename_i i hidx
      obtain ⟨hilt, hfo⟩ := findIdx?_find? _ _ i ([] : Row) hidx
      have hi1 : i + 1 < sheet.length := by
        have := List.length_drop 1 sheet
        omega
      have hrow_eq : sheet.getD (i + 1) [] = (sheet.drop 1).getD i [] := by
        simp [List.getD_eq_getElem?_getD, List.getElem?_drop]
      have hrow_mem : (sheet.drop 1).getD i [] ∈ sheet.drop 1 := by
        rw [List.getD_eq_getElem?_getD, List.getElem?_eq_getElem hilt]
        exact List.getElem_mem hilt
      have hrlen : 4 ≤ (sheet.getD (i + 1) []).length := by
        rw [hrow_eq]; exact hrows _ hrow_mem
      refine ⟨i, hidx, by simp [Mc.updateRowCell], ?_, ?_, ?_⟩
      · intro k hk
        simp only [Mc.updateRowCell]
        simp [List.getD_eq_getElem?_getD, List.getElem?_set_ne (Ne.symm hk)]
      · intro j hj
        exact setCell_cells sheet (i + 1) 3 _ (i + 1) j hj
      · refine ⟨sortedSet (splitCS (Mc.getExistingServices sheet
          (pyStrip (Mc.dictGetD d "outlet" "N/A"))) ++
            splitCS (Mc.formatUniqueCategories d)), ?_, nodup_sortedSet _, ?_⟩
        · exact cellAt_setCell_self sheet (i + 1) 3 _ hi1 (by omega)
        · intro t
          rw [mem_sortedSet, List.mem_append]
    · rename_i hnone
      exfalso
      apply hexist
      have hfnone : (sheet.drop 1).find? (fun row =>
          pyStripLower (Mc.recordGet (sheet.headD []) row "outlet") =
            pyStripLower (pyStrip (Mc.dictGetD d "outlet" "N/A"))) = none := by
        rw [List.find?_eq_none]
        intro x hx
        have := List.findIdx?_eq_none_iff.1 hnone x hx
        simpa using this
      simp only [Mc.getExistingServices, hfnone]
  · intro hne
    simp only [Mcd.dirProcessCompany]
    rw [if_pos hne]
    refine ⟨?_, ?_, ?_, ?_⟩
    · split
      · split
        · rfl
        · simp [Mcd.updateRowCell]
      · rfl
    · intro k j hj
      split
      · split
        · rfl
        · exact setCell_cells st.sheet _ 3 _ k j hj
      · rfl
    · intro k hk
      split
      · rename_i i hfind
        have hik : i ≠ k := fun he => hk (he ▸ hfind)
        split
        · rfl
        · simp only [Mcd.updateRowCell]
          simp [List.getD_eq_getElem?_getD, List.getElem?_set_ne hik]
      · rfl
    · intro k hfind'
      split
      · rename_i i hfind
        obtain rfl : k = i := by
          rw [hfind] at hfind'
          exact (Option.some_injective _ hfind').symm
        split
        · exact Or.inl rfl
        · by_cases hkl : k < st.sheet.length
          · by_cases hrl : 3 < (st.sheet.getD k []).length
            · refine Or.inr ⟨Mcd.pyListSet (splitCS ((Mcd.assocGet st.existing
                (c.company_name, dd.outlet_id)).getD "") ++ splitCS cat.services),
                ?_, List.nodup_dedup _, ?_⟩
              · exact cellAt_setCell_self st.sheet k 3 _ hkl hrl
              · intro t
                simp [Mcd.pyListSet, List.mem_dedup, List.mem_append]
            · left
              simp only [Mcd.updateRowCell,
                List.set_eq_of_length_le (show (st.sheet.getD k []).length ≤ 3 by omega)]
              simp [List.getD_eq_getElem?_getD, List.getElem?_set_eq_of_lt _ hkl]
          · left
            simp only [Mcd.updateRowCell]
            rw [List.set_eq_of_length_le (by omega)]
      · rename_i hfnone
        rw [hfnone] at hfind'
        exact absurd hfind' (by simp)
  · intro hempty
    simp only [Mcd.dirProcessCompany]
    rw [if_neg (fun hcon => hcon hempty)]
    rfl

/-- Witness for C1: merging into a concrete sheet whose outlet "77" row
stores services "A" keeps the sheet's length. -/
theorem C1_witness :
    (Mc.scrapeStep
      [Mc.HEADERS,
       ["t0", "Victoria", "Banyule Council", "A", "Acme", "area", "No", "ab",
        "77", "du", "loc", "sub", "VIC", "3000", "-37", "145", "w", "p", "su"]]
      [] [("outlet", "77"), ("category_name", "Aged Care"),
          ("subcategory_name", "Transport")] "ts").1.length =
    ([Mc.HEADERS,
      ["t0", "Victoria", "Banyule Council", "A", "Acme", "area", "No", "ab",
       "77", "du", "loc", "sub", "VIC", "3000", "-37", "145", "w", "p", "su"]] :
        List Row).length := by
  obtain ⟨⟨i, _, hlen, _⟩, _, _⟩ := C1_merge_into_existing_row
    [Mc.HEADERS,
     ["t0", "Victoria", "Banyule Council", "A", "Acme", "area", "No", "ab",
      "77", "du", "loc", "sub", "VIC", "3000", "-37", "145", "w", "p", "su"]]
    [] [("outlet", "77"), ("category_name", "Aged Care"),
        ("subcategory_name", "Transport")] "ts"
    ⟨[], [], []⟩ [] ⟨"A", "B", "A, B"⟩ "m" "u" "dts" ⟨"Acme", "a", "No"⟩ "l"
    Mcd.dirDetailsNA (by decide) (by decide) (by decide)
  exact hlen

/-- Claim C1, counterexample: in the mycommunity script, outlet "77"
already has a row (with an empty services cell), yet `scrape_and_save`
appends a new row instead of updating in place; in the mycommunitydirectory
script, outlet "77" already has a row under company "Other", yet scraping
the same outlet for company "Acme" appends a new row because the merge is
keyed by the (company name, outlet id) pair. -/
theorem C1_counterexample :
    ((∃ r ∈ c1Sheet.drop 1,
        pyStripLower (Mc.recordGet Mc.HEADERS r "outlet") = pyStripLower "77") ∧
      (Mc.scrapeStep c1Sheet [] c1Data "ts").1.length = c1Sheet.length + 1) ∧
    ((∃ r ∈ ([["h"],
        ["t0", "v", "G", "A", "Other", "area", "No", "ab", "77", "l", "loc",
         "s", "stx", "p", "la", "lo", "w", "ph", "u"]] : List Row).drop 1,
        cellAt r 8 = "77") ∧
      (Mcd.scrapeSubcategoryCore true ["x", "x", "x", "B"] "u" "ts"
        [["h"],
         ["t0", "v", "G", "A", "Other", "area", "No", "ab", "77", "l", "loc",
          "s", "stx", "p", "la", "lo", "w", "ph", "u"]]
        [["h"]]
        [(⟨"Acme", "area", "No"⟩, "l",
          ⟨"loc", "s", "stx", "p", "ph", "w", "77", "la", "lo", "ab"⟩)]).sheet.length =
      ([["h"],
        ["t0", "v", "G", "A", "Other", "area", "No", "ab", "77", "l", "loc",
         "s", "stx", "p", "la", "lo", "w", "ph", "u"]] : List Row).length + 1) := by
  decide

/-- The piece count of a single-character split is the separator count plus
one. -/
theorem splitOnCharAux_length (sep : Char) (cs acc : List Char) :
    (splitOnCharAux sep cs acc).length = cs.count sep + 1 := by
  induction cs generalizing acc with
  | nil => simp [splitOnCharAux]
  | cons c rest ih =>
    rw [splitOnCharAux]
    by_cases hc : c = sep
    · rw [if_pos hc]
      simp only [List.length_cons, ih, List.count_cons]
      simp [hc]
    · rw [if_neg hc]
      simp only [ih, List.count_cons]
      simp [hc]

/-- A Python single-character split has at least two pieces exactly when the
separator occurs in the string. -/
theorem pySplitChar_two_le (s : String) (sep : Char) :
    2 ≤ (pySplitChar s sep).length ↔ sep ∈ s.data := by
  rw [pySplitChar, List.length_map, splitOnCharAux_length]
  rw [← List.count_pos_iff]
  omega

/-- Claim C7 (amended): the detail extraction of both scripts returns a
record with every listing field; when every fetch attempt fails each field is
"N/A" except that the mycommunity script still fills the outlet from the
URL's numeric segment; the mycommunity extractor never raises, and the
directory extractor returns a record whenever the URL (after stripping
trailing slashes) contains a slash — on a slashless URL a successful fetch
raises IndexError (see the counterexample). -/
theorem C7_detail_extraction (attempts : List (Option Mc.ServicePage))
    (url : String) (page : Mcd.DirPage) (durl : String) :
    ((∀ a ∈ attempts, a = none) →
      (Mc.scrapeServiceDetails attempts url).about = "N/A" ∧
      (Mc.scrapeServiceDetails attempts url).location = "N/A" ∧
      (Mc.scrapeServiceDetails attempts url).suburb = "N/A" ∧
      (Mc.scrapeServiceDetails attempts url).state = "N/A" ∧
      (Mc.scrapeServiceDetails attempts url).postal_code = "N/A" ∧
      (Mc.scrapeServiceDetails attempts url).website = "N/A" ∧
      (Mc.scrapeServiceDetails attempts url).phone = "N/A" ∧
      (Mc.scrapeServiceDetails attempts url).latitude = "N/A" ∧
      (Mc.scrapeServiceDetails attempts url).longitude = "N/A" ∧
      (Mc.scrapeServiceDetails attempts url).outlet = Mc.extractOutletFromUrl url) ∧
    (Mcd.extractDetailsFromLink none durl = .ok Mcd.dirDetailsNA) ∧
    ('/' ∈ (pyRstrip durl '/').data →
      ∃ det, Mcd.extractDetailsFromLink (some page) durl = .ok det) := by
  refine ⟨?_, rfl, ?_⟩
  · intro hall
    have hfail : Mc.scrapeServiceDetails attempts url = Mc.serviceDefaults url := by
      induction attempts with
      | nil => rfl
      | cons a t ih =>
        have ha : a = none := hall a (List.mem_cons_self _ _)
        subst ha
        rw [Mc.scrapeServiceDetails]
        exact ih (fun x hx => hall x (List.mem_cons_of_mem _ hx))
    rw [hfail]
    exact ⟨rfl, rfl, rfl, rfl, rfl, rfl, rfl, rfl, rfl, rfl⟩
  · intro hs
    have hlen : ¬ ((pySplitChar (pyRstrip durl '/') '/').length < 2) := by
      have := (pySplitChar_two_le (pyRstrip durl '/') '/').2 hs
      omega
    simp only [Mcd.extractDetailsFromLink]
    rw [if_neg hlen]
    exact ⟨_, rfl⟩

/-- Witness for C7: three failed attempts leave the default record. -/
theorem C7_witness :
    (Mc.scrapeServiceDetails [none, none, none] "https://a/123/x").about =
      "N/A" :=
  ((C7_detail_extraction [none, none, none] "https://a/123/x"
    ⟨none, none, none, none, []⟩ "https://a/b").1 (by simp)).1

/-- Claim C7, counterexample: in the directory script a successfully fetched
details URL without any slash makes the outlet-ID extraction index
`url.rstrip('/').split('/')[-2]` raise IndexError. -/
theorem C7_counterexample :
    Mcd.extractDetailsFromLink (some ⟨none, none, none, none, []⟩) "x" =
      .error () := by
  rfl

/-- A whitespace character is not an ASCII uppercase letter. -/
theorem not_upper_of_pySpace (c : Char) (h : pySpace c = true) :
    isUpperAZ c = false := by
  simp only [pySpace, Bool.or_eq_true, decide_eq_true_eq] at h
  rcases h with ((((rfl | rfl) | rfl) | rfl) | rfl) | rfl <;> decide

/-- An ASCII uppercase letter is not whitespace. -/
theorem not_pySpace_of_upper (c : Char) (h : isUpperAZ c = true) :
    pySpace c = false := by
  cases hs : pySpace c
  · rfl
  · rw [not_upper_of_pySpace c hs] at h
    cases h

/-- A decimal digit is not whitespace. -/
theorem not_pySpace_of_digit (c : Char) (h : c.isDigit = true) :
    pySpace c = false := by
  cases hs : pySpace c
  · rfl
  · simp only [pySpace, Bool.or_eq_true, decide_eq_true_eq] at hs
    rcases hs with ((((rfl | rfl) | rfl) | rfl) | rfl) | rfl <;> cases h

/-- `dropWhile` is the identity on a list whose head fails the predicate. -/
theorem dropWhile_eq_self_of_head {α} (p : α → Bool) (l : List α)
    (h : ∀ c, l.head? = some c → p c = false) : l.dropWhile p = l := by
  cases l with
  | nil => rfl
  | cons a t =>
    rw [List.dropWhile_cons, if_neg]
    rw [h a rfl]
    simp

/-- The head surviving a `dropWhile` fails the predicate. -/
theorem head?_dropWhile_false {α} (p : α → Bool) (l : List α) (c : α)
    (h : (l.dropWhile p).head? = some c) : p c = false := by
  induction l with
  | nil => cases h
  | cons a t ih =>
    rw [List.dropWhile_cons] at h
    split at h
    · exact ih h
    · cases h
      rename_i hpa
      cases hp : p c
      · rfl
      · exact absurd hp hpa

/-- `dropWhile` over a concatenation whose first part fully satisfies the
predicate continues into the second part. -/
theorem dropWhile_append_all {α} (p : α → Bool) (l1 l2 : List α)
    (h : ∀ c ∈ l1, p c = true) : (l1 ++ l2).dropWhile p = l2.dropWhile p := by
  induction l1 with
  | nil => rfl
  | cons a t ih =>
    rw [List.cons_append, List.dropWhile_cons, if_pos (by
      rw [h a (List.mem_cons_self _ _)])]
    exact ih (fun c hc => h c (List.mem_cons_of_mem _ hc))

/-- `takeWhile` over a concatenation whose first part fully satisfies the
predicate keeps that part whole. -/
theorem takeWhile_append_all {α} (p : α → Bool) (l1 l2 : List α)
    (h : ∀ c ∈ l1, p c = true) :
    (l1 ++ l2).takeWhile p = l1 ++ l2.takeWhile p := by
  induction l1 with
  | nil => rfl
  | cons a t ih =>
    rw [List.cons_append, List.takeWhile_cons, if_pos (by
      rw [h a (List.mem_cons_self _ _)]), ih
      (fun c hc => h c (List.mem_cons_of_mem _ hc))]
    rfl

/-- `dropWhile` is the identity when no element satisfies the predicate. -/
theorem dropWhile_eq_self_of_all {α} (p : α → Bool) (l : List α)
    (h : ∀ c ∈ l, p c = false) : l.dropWhile p = l := by
  cases l with
  | nil => rfl
  | cons a t =>
    rw [List.dropWhile_cons, if_neg]
    rw [h a (List.mem_cons_self _ _)]
    simp

/-- `str.strip` is the identity on a string containing no whitespace. -/
theorem pyStripChars_eq_self (l : List Char)
    (h : ∀ c ∈ l, pySpace c = false) : pyStripChars l = l := by
  rw [pyStripChars, dropWhile_eq_self_of_all _ _ h,
    dropWhile_eq_self_of_all _ _ (fun c hc => h c (List.mem_reverse.1 hc)),
    List.reverse_reverse]

/-- The first character of a stripped string is not whitespace. -/
theorem pyStripChars_head (l : List Char) (c : Char)
    (h : (pyStripChars l).head? = some c) : pySpace c = false := by
  rw [pyStripChars, List.head?_reverse] at h
  obtain ⟨t, ht⟩ :=
    List.dropWhile_suffix (l := (l.dropWhile pySpace).reverse) (p := pySpace)
  have h2 : (l.dropWhile pySpace).reverse.getLast? = some c := by
    rw [← ht, List.getLast?_append, h]
    rfl
  rw [List.getLast?_reverse] at h2
  exact head?_dropWhile_false _ _ _ h2

/-- The last character of a stripped string is not whitespace. -/
theorem pyStripChars_getLast (l : List Char) (c : Char)
    (h : (pyStripChars l).getLast? = some c) : pySpace c = false := by
  rw [pyStripChars, List.getLast?_reverse] at h
  exact head?_dropWhile_false _ _ _ h

/-- `str.strip` is idempotent. -/
theorem pyStripChars_idem (l : List Char) :
    pyStripChars (pyStripChars l) = pyStripChars l := by
  rw [show pyStripChars (pyStripChars l) =
      (((pyStripChars l).dropWhile pySpace).reverse.dropWhile pySpace).reverse
    from rfl]
  rw [dropWhile_eq_self_of_head _ _ (fun c hc => pyStripChars_head l c hc)]
  rw [dropWhile_eq_self_of_head _ _ (fun c hc => pyStripChars_getLast l c (by
    rw [← List.head?_reverse]
    exact hc))]
  exact List.reverse_reverse _

/-- Evaluation of the suffix analysis on a string of the recognized shape:
it strips off postcode, state and the two separators and returns the
reversed remainder. -/
theorem sspSuffix_eval (pre run st pc : List Char) (s1 s2 : Char)
    (hst : st.length = 2 ∨ st.length = 3) (hstU : st.all isUpperAZ = true)
    (hpc : pc.length = 4) (hpcD : pc.all Char.isDigit = true)
    (hs1 : pySpace s1 = true) (hs2 : pySpace s2 = true) :
    Mc.sspSuffix (pre ++ run ++ s1 :: (st ++ s2 :: pc)) =
      some (run.reverse ++ pre.reverse, st, pc) := by
  obtain ⟨a, b, c2, e, rfl⟩ : ∃ a b c2 e, pc = [a, b, c2, e] := by
    rcases pc with _ | ⟨a, _ | ⟨b, _ | ⟨c2, _ | ⟨e, _ | ⟨f, r⟩⟩⟩⟩⟩ <;> simp at hpc
    exact ⟨a, b, c2, e, rfl⟩
  simp only [List.all_cons, List.all_nil, Bool.and_eq_true, and_true] at hpcD
  obtain ⟨hda, hdb, hdc, hde⟩ := hpcD
  rcases hst with h2 | h3
  · obtain ⟨x, y, rfl⟩ : ∃ x y, st = [x, y] := by
      rcases st with _ | ⟨x, _ | ⟨y, _ | ⟨z, r⟩⟩⟩ <;> simp at h2
      exact ⟨x, y, rfl⟩
    simp only [List.all_cons, List.all_nil, Bool.and_eq_true, and_true] at hstU
    obtain ⟨hx, hy⟩ := hstU
    have hrev : (pre ++ run ++ s1 :: ([x, y] ++ s2 :: [a, b, c2, e])).reverse =
        e :: c2 :: b :: a :: s2 :: y :: x :: s1 ::
          (run.reverse ++ pre.reverse) := by
      simp
    simp only [Mc.sspSuffix]
    rw [hrev]
    dsimp only
    rw [if_pos (by simp [hde, hdc, hdb, hda, hs2, hy, hx])]
    rw [if_neg (by rw [not_upper_of_pySpace s1 hs1]; simp)]
    rw [if_pos hs1]
  · obtain ⟨x, y, z, rfl⟩ : ∃ x y z, st = [x, y, z] := by
      rcases st with _ | ⟨x, _ | ⟨y, _ | ⟨z, _ | ⟨w, r⟩⟩⟩⟩ <;> simp at h3
      exact ⟨x, y, z, rfl⟩
    simp only [List.all_cons, List.all_nil, Bool.and_eq_true, and_true] at hstU
    obtain ⟨hx, hy, hz⟩ := hstU
    have hrev : (pre ++ run ++ s1 :: ([x, y, z] ++ s2 :: [a, b, c2, e])).reverse =
        e :: c2 :: b :: a :: s2 :: z :: y :: x :: s1 ::
          (run.reverse ++ pre.reverse) := by
      simp
    simp only [Mc.sspSuffix]
    rw [hrev]
    dsimp only
    rw [if_pos (by simp [hde, hdc, hdb, hda, hs2, hz, hy])]
    rw [if_pos hx]
    rw [if_pos hs1]

/-- On a shaped string the suburb capture of the simple regex is the whole
`[\w\s]` run. -/
theorem matchSimple_eval (pre run st pc : List Char) (s1 s2 : Char)
    (hrun : run ≠ []) (hrunW : run.all isWordSpace = true)
    (hlast : Mc.lastNotWordSpace pre = true)
    (hst : st.length = 2 ∨ st.length = 3) (hstU : st.all isUpperAZ = true)
    (hpc : pc.length = 4) (hpcD : pc.all Char.isDigit = true)
    (hs1 : pySpace s1 = true) (hs2 : pySpace s2 = true) :
    Mc.matchSimple (pre ++ run ++ s1 :: (st ++ s2 :: pc)) =
      some (run, st, pc) := by
  have htake : (run.reverse ++ pre.reverse).takeWhile isWordSpace =
      run.reverse := by
    rw [takeWhile_append_all _ _ _ (fun c hc =>
      (List.all_eq_true.1 hrunW) c (List.mem_reverse.1 hc))]
    cases hp : pre.reverse with
    | nil => simp
    | cons p ps =>
      have hgl : pre.getLast? = some p := by
        rw [← List.head?_reverse, hp]
        rfl
      have hpw : isWordSpace p = false := by
        rw [Mc.lastNotWordSpace, hgl] at hlast
        simpa using hlast
      rw [List.takeWhile_cons, if_neg (by rw [hpw]; simp)]
      simp
  simp only [Mc.matchSimple,
    sspSuffix_eval pre run st pc s1 s2 hst hstU hpc hpcD hs1 hs2]
  rw [htake]
  rw [if_neg (by simp [hrun])]
  simp

/-- On a shaped string the comma regex matches exactly when the prefix ends
with a comma, capturing the same groups. -/
theorem matchComma_eval (pre run st pc : List Char) (s1 s2 : Char)
    (hrun : run ≠ []) (hrunW : run.all isWordSpace = true)
    (hlast : Mc.lastNotWordSpace pre = true)
    (hst : st.length = 2 ∨ st.length = 3) (hstU : st.all isUpperAZ = true)
    (hpc : pc.length = 4) (hpcD : pc.all Char.isDigit = true)
    (hs1 : pySpace s1 = true) (hs2 : pySpace s2 = true) :
    Mc.matchComma (pre ++ run ++ s1 :: (st ++ s2 :: pc)) =
      (match pre.getLast? with
       | some ch => if ch = ',' then some (run, st, pc) else none
       | none => none) := by
  have hallrun : ∀ c ∈ run.reverse, isWordSpace c = true := fun c hc =>
    (List.all_eq_true.1 hrunW) c (List.mem_reverse.1 hc)
  have htake : (run.reverse ++ pre.reverse).takeWhile isWordSpace =
      run.reverse := by
    rw [takeWhile_append_all _ _ _ hallrun]
    cases hp : pre.reverse with
    | nil => simp
    | cons p ps =>
      have hgl : pre.getLast? = some p := by
        rw [← List.head?_reverse, hp]
        rfl
      have hpw : isWordSpace p = false := by
        rw [Mc.lastNotWordSpace, hgl] at hlast
        simpa using hlast
      rw [List.takeWhile_cons, if_neg (by rw [hpw]; simp)]
      simp
  have hdrop : (run.reverse ++ pre.reverse).dropWhile isWordSpace =
      pre.reverse := by
    rw [dropWhile_append_all _ _ _ hallrun]
    cases hp : pre.reverse with
    | nil => rfl
    | cons p ps =>
      have hgl : pre.getLast? = some p := by
        rw [← List.head?_reverse, hp]
        rfl
      have hpw : isWordSpace p = false := by
        rw [Mc.lastNotWordSpace, hgl] at hlast
        simpa using hlast
      exact dropWhile_eq_self_of_head _ _ (fun c hc => by
        cases hc
        exact hpw)
  simp only [Mc.matchComma,
    sspSuffix_eval pre run st pc s1 s2 hst hstU hpc hpcD hs1 hs2]
  rw [htake, hdrop]
  rw [if_neg (by simp [hrun])]
  rw [List.head?_reverse]
  cases pre.getLast? with
  | none => rfl
  | some ch =>
    dsimp only
    split
    · simp
    · rfl

/-- A successful suffix analysis reconstructs the state/postcode shape. -/
theorem sspSuffix_inv (cs rev st pc : List Char)
    (h : Mc.sspSuffix cs = some (rev, st, pc)) :
    ∃ s1 s2, cs = rev.reverse ++ s1 :: (st ++ s2 :: pc) ∧
      (st.length = 2 ∨ st.length = 3) ∧ st.all isUpperAZ = true ∧
      pc.length = 4 ∧ pc.all Char.isDigit = true ∧
      pySpace s1 = true ∧ pySpace s2 = true := by
  unfold Mc.sspSuffix at h
  rcases hrev : cs.reverse with _ |
    ⟨p1, _ | ⟨p2, _ | ⟨p3, _ | ⟨p4, _ | ⟨w1, _ | ⟨c1, _ | ⟨c2, rest⟩⟩⟩⟩⟩⟩⟩ <;>
    rw [hrev] at h <;> dsimp only at h
  case _ => exact absurd h (by simp)
  case _ => exact absurd h (by simp)
  case _ => exact absurd h (by simp)
  case _ => exact absurd h (by simp)
  case _ => exact absurd h (by simp)
  case _ => exact absurd h (by simp)
  case _ => exact absurd h (by simp)
  by_cases hcond : (p1.isDigit && p2.isDigit && p3.isDigit && p4.isDigit &&
      pySpace w1 && isUpperAZ c1 && isUpperAZ c2) = true
  case neg => rw [if_neg hcond] at h; exact absurd h (by simp)
  rw [if_pos hcond] at h
  simp only [Bool.and_eq_true] at hcond
  obtain ⟨⟨⟨⟨⟨⟨h1, h2⟩, h3⟩, h4⟩, hw1⟩, hc1⟩, hc2⟩ := hcond
  rcases rest with _ | ⟨c3, rest2⟩
  · exact absurd h (by simp)
  dsimp only at h
  by_cases hup : isUpperAZ c3 = true
  · rw [if_pos hup] at h
    rcases rest2 with _ | ⟨w2, rest3⟩
    · exact absurd h (by simp)
    dsimp only at h
    by_cases hw2 : pySpace w2 = true
    · rw [if_pos hw2] at h
      simp only [Option.some.injEq, Prod.mk.injEq] at h
      obtain ⟨h5, h6, h7⟩ := h
      subst h5; subst h6; subst h7
      refine ⟨w2, w1, ?_, Or.inr rfl, by simp [hup, hc1, hc2], rfl,
        by simp [h1, h2, h3, h4], hw2, hw1⟩
      rw [← List.reverse_reverse cs, hrev]
      simp
    · rw [if_neg hw2] at h; exact absurd h (by simp)
  · rw [if_neg hup] at h
    by_cases hsp : pySpace c3 = true
    · rw [if_pos hsp] at h
      simp only [Option.some.injEq, Prod.mk.injEq] at h
      obtain ⟨h5, h6, h7⟩ := h
      subst h5; subst h6; subst h7
      refine ⟨c3, w1, ?_, Or.inl rfl, by simp [hc1, hc2], rfl,
        by simp [h1, h2, h3, h4], hsp, hw1⟩
      rw [← List.reverse_reverse cs, hrev]
      simp
    · rw [if_neg hsp] at h; exact absurd h (by simp)

/-- A successful simple-regex match exhibits the location shape. -/
theorem shape_of_matchSimple (cs g1 g2 g3 : List Char)
    (h : Mc.matchSimple cs = some (g1, g2, g3)) :
    ∃ pre run st pc s1 s2, Mc.LocShape cs pre run st pc s1 s2 := by
  unfold Mc.matchSimple at h
  split at h
  · rename_i rev st' pc' heq
    dsimp only at h
    by_cases hne : (rev.takeWhile isWordSpace).isEmpty = true
    · rw [if_pos hne] at h; exact absurd h (by simp)
    · obtain ⟨s1, s2, hcseq, hstlen, hstU, hpclen, hpcD, hs1, hs2⟩ :=
        sspSuffix_inv cs rev st' pc' heq
      refine ⟨(rev.dropWhile isWordSpace).reverse,
        (rev.takeWhile isWordSpace).reverse, st', pc', s1, s2,
        ?_, ?_, ?_, hstlen, hstU, hpclen, hpcD, hs1, hs2, ?_⟩
      · have hsplit : rev.reverse = (rev.dropWhile isWordSpace).reverse ++
            (rev.takeWhile isWordSpace).reverse := by
          rw [← List.reverse_append, List.takeWhile_append_dropWhile]
        rw [hcseq, hsplit, List.append_assoc]
      · simp only [ne_eq, List.reverse_eq_nil_iff]
        intro hnil
        rw [hnil] at hne
        simp at hne
      · rw [List.all_eq_true]
        intro c hc
        exact List.mem_takeWhile_imp (List.mem_reverse.1 hc)
      · rw [Mc.lastNotWordSpace]
        cases hd : (rev.dropWhile isWordSpace).reverse.getLast? with
        | none => rfl
        | some c =>
          rw [List.getLast?_reverse] at hd
          dsimp only
          simp [head?_dropWhile_false _ _ _ hd]
  · exact absurd h (by simp)

/-- A successful comma-regex match exhibits the location shape. -/
theorem shape_of_matchComma (cs g1 g2 g3 : List Char)
    (h : Mc.matchComma cs = some (g1, g2, g3)) :
    ∃ pre run st pc s1 s2, Mc.LocShape cs pre run st pc s1 s2 := by
  unfold Mc.matchComma at h
  split at h
  · rename_i rev st' pc' heq
    dsimp only at h
    by_cases hne : (rev.takeWhile isWordSpace).isEmpty = true
    · rw [if_pos hne] at h; exact absurd h (by simp)
    · have hsimple : Mc.matchSimple cs =
          some ((rev.takeWhile isWordSpace).reverse, st', pc') := by
        unfold Mc.matchSimple
        rw [heq]
        dsimp only
        rw [if_neg hne]
      exact shape_of_matchSimple cs _ _ _ hsimple
  · exact absurd h (by simp)

/-- `parse_location` always returns a triple of stripped strings. -/
theorem parseLocation_stripped (location : String) :
    pyStrip (Mc.parseLocation location).1 = (Mc.parseLocation location).1 ∧
    pyStrip (Mc.parseLocation location).2.1 = (Mc.parseLocation location).2.1 ∧
    pyStrip (Mc.parseLocation location).2.2 = (Mc.parseLocation location).2.2 := by
  unfold Mc.parseLocation
  dsimp only
  split
  · exact ⟨congrArg String.mk (pyStripChars_idem _),
      congrArg String.mk (pyStripChars_idem _),
      congrArg String.mk (pyStripChars_idem _)⟩
  · split
    · exact ⟨congrArg String.mk (pyStripChars_idem _),
        congrArg String.mk (pyStripChars_idem _),
        congrArg String.mk (pyStripChars_idem _)⟩
    · exact ⟨by decide, by decide, by decide⟩

/-- Claim C8: `parse_location` returns a triple of stripped strings and never
raises; when the stripped input decomposes as an optional prefix ending in a
non-word/space character, a non-empty `[\w\s]` suburb run, a 2-or-3-uppercase
state code and a 4-digit postcode (single spaces in between), it returns
exactly those three components (the suburb stripped); otherwise it returns
three "N/A" strings. -/
theorem C8_parse_location (location : String) :
    (∀ pre run st pc s1 s2,
      Mc.LocShape (pyStripChars location.data) pre run st pc s1 s2 →
      Mc.parseLocation location =
        (String.mk (pyStripChars run), String.mk st, String.mk pc)) ∧
    ((∀ pre run st pc s1 s2,
      ¬ Mc.LocShape (pyStripChars location.data) pre run st pc s1 s2) →
      Mc.parseLocation location = ("N/A", "N/A", "N/A")) ∧
    (pyStrip (Mc.parseLocation location).1 = (Mc.parseLocation location).1 ∧
     pyStrip (Mc.parseLocation location).2.1 = (Mc.parseLocation location).2.1 ∧
     pyStrip (Mc.parseLocation location).2.2 = (Mc.parseLocation location).2.2) := by
  refine ⟨?_, ?_, parseLocation_stripped location⟩
  · intro pre run st pc s1 s2 hshape
    obtain ⟨hcs, hrun, hrunW, hstlen, hstU, hpclen, hpcD, hs1, hs2, hlast⟩ :=
      hshape
    have hcomma := matchComma_eval pre run st pc s1 s2 hrun hrunW hlast
      hstlen hstU hpclen hpcD hs1 hs2
    have hsimple := matchSimple_eval pre run st pc s1 s2 hrun hrunW hlast
      hstlen hstU hpclen hpcD hs1 hs2
    rw [← hcs] at hcomma hsimple
    have hststrip : pyStripChars st = st := pyStripChars_eq_self st
      (fun c hc => not_pySpace_of_upper c ((List.all_eq_true.1 hstU) c hc))
    have hpcstrip : pyStripChars pc = pc := pyStripChars_eq_self pc
      (fun c hc => not_pySpace_of_digit c ((List.all_eq_true.1 hpcD) c hc))
    unfold Mc.parseLocation
    dsimp only
    rw [hcomma]
    cases hgl : pre.getLast? with
    | none =>
      dsimp only
      rw [hsimple]
      dsimp only
      rw [hststrip, hpcstrip]
    | some ch =>
      dsimp only
      by_cases hch : ch = ','
      · rw [if_pos hch]
        dsimp only
        rw [hststrip, hpcstrip]
      · rw [if_neg hch]
        dsimp only
        rw [hsimple]
        dsimp only
        rw [hststrip, hpcstrip]
  · intro hnone
    unfold Mc.parseLocation
    dsimp only
    cases hc : Mc.matchComma (pyStripChars location.data) with
    | some g =>
      obtain ⟨g1, g2, g3⟩ := g
      obtain ⟨pre, run, st, pc, s1, s2, hsh⟩ := shape_of_matchComma _ _ _ _ hc
      exact absurd hsh (hnone pre run st pc s1 s2)
    | none =>
      cases hs : Mc.matchSimple (pyStripChars location.data) with
      | some g =>
        obtain ⟨g1, g2, g3⟩ := g
        obtain ⟨pre, run, st, pc, s1, s2, hsh⟩ :=
          shape_of_matchSimple _ _ _ _ hs
        exact absurd hsh (hnone pre run st pc s1 s2)
      | none => rfl

/-- Witness for C8 on a concrete comma-separated address. -/
theorem C8_witness :
    Mc.parseLocation "1 Main St, West End QLD 4101" =
      ("West End", "QLD", "4101") := by
  have h := (C8_parse_location "1 Main St, West End QLD 4101").1
    "1 Main St,".data " West End".data "QLD".data "4101".data ' ' ' '
    (by unfold Mc.LocShape; decide)
  rw [h]
  decide
